import Mathlib

/-!
# The Windows main-loop driver `AppImplMswBasic`

A shallow embedding of `src/cinder/app/msw/AppImplMswBasic.cpp`: the driver
object that owns the window list, runs setup / update / draw / cleanup in a
loop and paces the frames against a target frame rate.

Conventions of the embedding.

* `double` and `float` values are rationals (exact arithmetic), and
  `mFrameRate` is not zero, so that `1.0 / mFrameRate` is a finite number.
  The two conversions of a `double` to an integer type keep their range: see
  `castInt`.
* `std::list<WindowImplMswBasic*>` is a `List`; a pointer is modelled by the
  object it designates.
* The code the application runs inside a callback is represented by the
  driver calls it makes (`Call`, `AppCall`), in order.  Every driver call
  runs to completion before the next one starts.
* Handlers that run inside a loop over `mWindows` (`resize`, `redraw`) make
  calls of type `Call` only: these leave the window list alone, so the
  list iterator of the loop stays valid.
* The busy-wait loops of the lock-step mode can only be left when another
  thread changes the flags; the calls of other threads that land while the
  main thread spins are part of the environment (`FrameEnv.waitUpdate`,
  `FrameEnv.waitPace`).  A single-threaded execution has none.
-/

namespace Cinder

/-! ## Data model -/

/-- A `WindowRef` is a shared pointer to a window; `none` is the null reference. -/
abbrev WindowRef := Option Nat

/-- The window implementation object a `WindowImplMswBasic*` points to. -/
structure WindowImplMswBasic where
  /-- Address of the object (what pointer comparison looks at). -/
  addr : Nat
  /-- The `mWindowRef` member. -/
  mWindowRef : WindowRef
  deriving DecidableEq, Repr

/-- Calls that leave the driver towards the application or a window. -/
inductive Event where
  | privateSetup
  | emitDidBecomeActive
  | resize (w : WindowImplMswBasic)
  | privateBeginFrame
  | privateUpdate
  | redraw (w : WindowImplMswBasic)
  | privatePostUpdateDraw
  | sleep (seconds : ℚ)
  | peekMessages
  | privateEndFrame
  | emitCleanup
  | emitClose (w : WindowImplMswBasic)
  | privateClose (w : WindowImplMswBasic)
  | emitResize (w : WindowImplMswBasic)
  deriving DecidableEq, Repr

/-- The members of `AppImplMswBasic` (and of its base class) that the file reads or writes. -/
structure AppImplMswBasic where
  mWindows : List WindowImplMswBasic
  mForegroundWindow : WindowRef
  mShouldQuit : Bool
  mQuitOnLastWindowClosed : Bool
  mSetupHasBeenCalled : Bool
  mNeedsToRefreshDisplays : Bool
  /-- Value returned by `getHighDensityDisplayEnabled()`. -/
  highDensityDisplayEnabled : Bool
  mFrameRate : ℚ
  mFrameRateEnabled : Bool
  mNextFrameTime : ℚ
  mSyncMode : Bool
  mFrameLocked : Bool
  mSleep : Bool
  mAutoEpochReset : Bool
  mEpochReset : Bool
  mDebug : Bool
  /-- An `unsigned int`. -/
  epochResetCounter : Nat
  deriving DecidableEq, Repr

/-- Conversion of a `double` to a signed integer of `bits` bits: truncation
towards zero; a value outside the range gives the "integer indefinite"
value `-2^(bits-1)` of the x86 conversion instructions. -/
def castInt (bits : Nat) (x : ℚ) : Int :=
  let t := Int.tdiv x.num x.den
  if -(2 : Int) ^ (bits - 1) ≤ t ∧ t < (2 : Int) ^ (bits - 1) then t else -(2 : Int) ^ (bits - 1)

/-! ## Window list operations -/

/-- `std::find( first, last, value )`: the position of the first element equal
to `value`, the length of the list (the position of `end()`) when there is none. -/
def find : List WindowImplMswBasic → WindowImplMswBasic → Nat
  | [], _ => 0
  | x :: xs, w => if x = w then 0 else find xs w + 1

/-- `AppImplMswBasic::closeWindow`. Returns the new state and the calls made on the window. -/
def closeWindow (windowImpl : WindowImplMswBasic) (s : AppImplMswBasic) :
    AppImplMswBasic × List Event :=
  let winIt := find s.mWindows windowImpl
  let r : AppImplMswBasic × List Event :=
    if winIt ≠ s.mWindows.length then
      ({ s with mWindows := s.mWindows.eraseIdx winIt },
        [Event.emitClose windowImpl, Event.privateClose windowImpl])
    else (s, [])
  if r.1.mWindows.isEmpty && r.1.mQuitOnLastWindowClosed then
    ({ r.1 with mShouldQuit := true }, r.2)
  else r

/-- `AppImplMswBasic::createWindow`; `w` is the window object the call allocates.
(The choice of the renderer is not part of the embedding.) -/
def createWindow (w : WindowImplMswBasic) (s : AppImplMswBasic) :
    AppImplMswBasic × List Event :=
  let s1 := { s with mWindows := s.mWindows ++ [w] }
  (s1, if s1.mSetupHasBeenCalled then [Event.emitResize w] else [])

/-- `AppImplMswBasic::getNumWindows`. -/
def getNumWindows (s : AppImplMswBasic) : Nat :=
  s.mWindows.length

/-- `std::advance( it, n )` on a list iterator, the iterator being the rest of the list. -/
def advance : List WindowImplMswBasic → Nat → List WindowImplMswBasic
  | l, 0 => l
  | [], _ + 1 => []
  | _ :: xs, n + 1 => advance xs n

/-- `AppImplMswBasic::getWindowIndex`. The method is not `const`: the state after
the call is returned with the reference. -/
def getWindowIndex (index : Nat) (s : AppImplMswBasic) : WindowRef × AppImplMswBasic :=
  if index ≥ s.mWindows.length then (none, s)
  else
    match advance s.mWindows index with
    | w :: _ => (w.mWindowRef, s)
    | [] => (none, s)

/-! ## The small setters -/

/-- `AppImplMswBasic::quit`; `agree` is the value `privateEmitShouldQuit()` returns. -/
def quit (agree : Bool) (s : AppImplMswBasic) : AppImplMswBasic :=
  if !agree then s
  else { s with mShouldQuit := true }

/-- `AppImplMswBasic::setFrameRate`; `now` is the clock reading it takes. -/
def setFrameRate (frameRate now : ℚ) (s : AppImplMswBasic) : AppImplMswBasic :=
  { s with mFrameRate := frameRate, mFrameRateEnabled := true, mNextFrameTime := now }

/-- `AppImplMswBasic::disableFrameRate`. -/
def disableFrameRate (s : AppImplMswBasic) : AppImplMswBasic :=
  { s with mFrameRateEnabled := false }

/-- `AppImplMswBasic::isFrameRateEnabled`. -/
def isFrameRateEnabled (s : AppImplMswBasic) : Bool :=
  s.mFrameRateEnabled

/-- `AppImplMswBasic::setFrameLock`. -/
def setFrameLock (lock : Bool) (s : AppImplMswBasic) : AppImplMswBasic :=
  { s with mFrameLocked := lock }

/-- `AppImplMswBasic::enableAutoEpochReset`. -/
def enableAutoEpochReset (val : Bool) (s : AppImplMswBasic) : AppImplMswBasic :=
  { s with mAutoEpochReset := val }

/-- `AppImplMswBasic::epochReset`; the offset is not used by the code. -/
def epochReset (_offset : ℚ) (s : AppImplMswBasic) : AppImplMswBasic :=
  { s with mEpochReset := true }

/-- `AppImplMswBasic::setSyncMode`. -/
def setSyncMode (lock doSleep : Bool) (s : AppImplMswBasic) : AppImplMswBasic :=
  { s with mSyncMode := lock, mSleep := doSleep }

/-- `AppImplMswBasic::setDebug`. -/
def setDebug (val : Bool) (s : AppImplMswBasic) : AppImplMswBasic :=
  { s with mDebug := val }

/-- `AppImplMswBasic::getForegroundWindow`. -/
def getForegroundWindow (s : AppImplMswBasic) : WindowRef :=
  s.mForegroundWindow

/-- `AppImplMswBasic::setForegroundWindow`. -/
def setForegroundWindow (window : WindowRef) (s : AppImplMswBasic) : AppImplMswBasic :=
  { s with mForegroundWindow := window }

/-- The write `mNeedsToRefreshDisplays = true`. The code that performs it is in
the window implementation, not in this file; `run` documents it: "all of our
Windows will have marked this as true if the user has unplugged, plugged or
modified a Monitor". -/
def markDisplaysChanged (s : AppImplMswBasic) : AppImplMswBasic :=
  { s with mNeedsToRefreshDisplays := true }

/-! ## The constructor -/

/-- The settings the constructor reads. A window format is represented by the
window object that `createWindow` builds from it. -/
structure Settings where
  frameRate : ℚ
  frameRateEnabled : Bool
  quitOnLastWindowCloseEnabled : Bool
  windowFormats : List WindowImplMswBasic
  defaultWindowFormat : WindowImplMswBasic

/-- The constructor `AppImplMswBasic::AppImplMswBasic`; `base` is the object as the
base-class constructor and the member initialisers leave it. -/
def construct (base : AppImplMswBasic) (settings : Settings) : AppImplMswBasic :=
  let s : AppImplMswBasic :=
    { base with
      mShouldQuit := false
      mFrameRate := settings.frameRate
      mFrameRateEnabled := settings.frameRateEnabled
      mQuitOnLastWindowClosed := settings.quitOnLastWindowCloseEnabled }
  let formats :=
    if settings.windowFormats.isEmpty then [settings.defaultWindowFormat]
    else settings.windowFormats
  formats.foldl (fun acc format => (createWindow format acc).1) s

/-! ## Calls made by the application -/

/-- Driver calls that do not create or close a window. -/
inductive Call where
  | quit (agree : Bool)
  | setFrameRate (frameRate now : ℚ)
  | disableFrameRate
  | setFrameLock (lock : Bool)
  | enableAutoEpochReset (val : Bool)
  | epochReset (offset : ℚ)
  | setSyncMode (lock doSleep : Bool)
  | setDebug (val : Bool)
  | setForegroundWindow (window : WindowRef)
  | markDisplaysChanged
  deriving DecidableEq, Repr

/-- Any driver call. -/
inductive AppCall where
  | call (c : Call)
  | createWindow (w : WindowImplMswBasic)
  | closeWindow (w : WindowImplMswBasic)
  deriving DecidableEq, Repr

/-- Effect of one call on the driver. -/
def Call.apply : Call → AppImplMswBasic → AppImplMswBasic
  | .quit agree => Cinder.quit agree
  | .setFrameRate frameRate now => Cinder.setFrameRate frameRate now
  | .disableFrameRate => Cinder.disableFrameRate
  | .setFrameLock lock => Cinder.setFrameLock lock
  | .enableAutoEpochReset val => Cinder.enableAutoEpochReset val
  | .epochReset offset => Cinder.epochReset offset
  | .setSyncMode lock doSleep => Cinder.setSyncMode lock doSleep
  | .setDebug val => Cinder.setDebug val
  | .setForegroundWindow window => Cinder.setForegroundWindow window
  | .markDisplaysChanged => Cinder.markDisplaysChanged

/-- Effect of one call on the driver. -/
def AppCall.apply : AppCall → AppImplMswBasic → AppImplMswBasic
  | .call c => c.apply
  | .createWindow w => fun s => (Cinder.createWindow w s).1
  | .closeWindow w => fun s => (Cinder.closeWindow w s).1

/-- Effect of the calls of one handler, in order. -/
def applyCalls (cs : List Call) (s : AppImplMswBasic) : AppImplMswBasic :=
  cs.foldl (fun acc c => c.apply acc) s

/-- Effect of the calls of one callback, in order. -/
def applyAppCalls (cs : List AppCall) (s : AppImplMswBasic) : AppImplMswBasic :=
  cs.foldl (fun acc c => c.apply acc) s

/-! ## One frame of `run` -/

/-- What the environment contributes to one frame: the calls each callback
makes, the clock readings, and the messages that arrive. -/
structure FrameEnv where
  /-- Calls made by `privateBeginFrame__`. -/
  beginFrame : List AppCall
  /-- Calls made by the resize handler of a window. -/
  resize : WindowImplMswBasic → List Call
  /-- Calls of other threads while the first wait loop spins, one batch per iteration. -/
  waitUpdate : List (List AppCall)
  /-- Calls made by `privateUpdate__`. -/
  update : List AppCall
  /-- Clock reading before the windows are drawn. -/
  drawStart : ℚ
  /-- Calls made by the redraw of a window. -/
  redraw : WindowImplMswBasic → List Call
  /-- Clock reading after the windows are drawn. -/
  drawEnd : ℚ
  /-- Calls made by `privatePostUpdateDraw__`. -/
  postUpdateDraw : List AppCall
  /-- Clock reading taken when the epoch is reset. -/
  epochTime : ℚ
  /-- Calls of other threads while the second wait loop spins, one batch per iteration. -/
  waitPace : List (List AppCall)
  /-- Clock reading `currentSeconds`. -/
  currentSeconds : ℚ
  /-- Whether `SetWaitableTimer` succeeds. -/
  timerSet : Bool
  /-- The native messages that arrive during the pacing step, as the calls
  their handlers make: in `sleep` one batch per wake-up before the timer
  fires, in the message pump one entry per message. -/
  messages : List (List AppCall)
  /-- Calls made by `privateEndFrame__`. -/
  endFrame : List AppCall

/-- The local `secondsPerFrame` of `run`: `1.0 / (double)mFrameRate`, for a frame
rate that is not zero. -/
def secondsPerFrame (s : AppImplMswBasic) : ℚ :=
  1 / s.mFrameRate

/-- The loop `for( auto &window : mWindows ) window->resize();`. -/
def resizeAll (resize : WindowImplMswBasic → List Call) :
    List WindowImplMswBasic → AppImplMswBasic → AppImplMswBasic × List Event
  | [], s => (s, [])
  | w :: ws, s =>
    let r := resizeAll resize ws (applyCalls (resize w) s)
    (r.1, Event.resize w :: r.2)

/-- The display refresh at the start of a frame (the `mNeedsToRefreshDisplays` block). -/
def refreshDisplays (env : FrameEnv) (s : AppImplMswBasic) : AppImplMswBasic × List Event :=
  if s.mNeedsToRefreshDisplays then
    let s1 := { s with mNeedsToRefreshDisplays := false }
    if s1.highDensityDisplayEnabled then resizeAll env.resize s1.mWindows s1
    else (s1, [])
  else (s, [])

/-- The assignment before a wait loop:
`if (mSyncMode) mFrameLocked = true; else mFrameLocked = false;`. -/
def lockFrame (s : AppImplMswBasic) : AppImplMswBasic :=
  if s.mSyncMode then { s with mFrameLocked := true }
  else { s with mFrameLocked := false }

/-- The loop `while (mFrameLocked && mSyncMode) {}`. The body is empty: between
two tests of the condition only another thread can act, and `others` lists
what the other threads do, one batch per iteration. When the condition still
holds after the last batch the loop never exits: the result is `none`.
Otherwise the state at exit and the number of iterations. -/
def waitLoop : List (List AppCall) → AppImplMswBasic → Option (AppImplMswBasic × Nat)
  | [], s => if s.mFrameLocked && s.mSyncMode then none else some (s, 0)
  | b :: bs, s =>
    if s.mFrameLocked && s.mSyncMode then
      (waitLoop bs (applyAppCalls b s)).map (fun r => (r.1, r.2 + 1))
    else some (s, 0)

/-- The draw loop
`for( auto &window : mWindows ) { if( ! mShouldQuit ) window->redraw(); }`. -/
def redrawAll (redraw : WindowImplMswBasic → List Call) :
    List WindowImplMswBasic → AppImplMswBasic → AppImplMswBasic × List Event
  | [], s => (s, [])
  | w :: ws, s =>
    if !s.mShouldQuit then
      let r := redrawAll redraw ws (applyCalls (redraw w) s)
      (r.1, Event.redraw w :: r.2)
    else redrawAll redraw ws s

/-- The automatic trigger:
`if (mAutoEpochReset && mFrameRateEnabled) { if (drawTime > secondsPerFrame) epochResetCounter++; }`. -/
def autoEpochTrigger (drawTime spf : ℚ) (s : AppImplMswBasic) : AppImplMswBasic :=
  if s.mAutoEpochReset && s.mFrameRateEnabled then
    if drawTime > spf then { s with epochResetCounter := (s.epochResetCounter + 1) % 2 ^ 32 }
    else s
  else s

/-- The statement `if (epochResetter != epochResetCounter) mEpochReset = true;`. -/
def triggerReset (epochResetter : Nat) (s : AppImplMswBasic) : AppImplMswBasic :=
  if epochResetter ≠ s.epochResetCounter then { s with mEpochReset := true }
  else s

/-- The check `if (mEpochReset) { mNextFrameTime = getElapsedSeconds(); mEpochReset = false; }`. -/
def epochCheck (now : ℚ) (s : AppImplMswBasic) : AppImplMswBasic :=
  if s.mEpochReset then { s with mNextFrameTime := now, mEpochReset := false }
  else s

/-- The pacing update of `mNextFrameTime` (from `elapsedSeconds` to
`mNextFrameTime += secondsPerFrame`). -/
def advanceNextFrameTime (spf currentSeconds : ℚ) (s : AppImplMswBasic) : AppImplMswBasic :=
  let elapsedSeconds := currentSeconds - s.mNextFrameTime
  let s1 :=
    if elapsedSeconds > 1 then
      let numSkipFrames := castInt 32 (elapsedSeconds / spf)
      { s with mNextFrameTime := s.mNextFrameTime + (numSkipFrames : ℚ) * spf }
    else s
  { s1 with mNextFrameTime := s1.mNextFrameTime + spf }

/-- The waiting loop of `sleep`: `wakeups` are the batches of messages that wake
the thread before the timer fires. -/
def sleepLoop : List (List AppCall) → AppImplMswBasic → AppImplMswBasic
  | [], s => s
  | b :: bs, s => if !s.mShouldQuit then sleepLoop bs (applyAppCalls b s) else s

/-- `AppImplMswBasic::sleep`. -/
def sleep (seconds : ℚ) (timerSet : Bool) (wakeups : List (List AppCall))
    (s : AppImplMswBasic) : AppImplMswBasic :=
  let waitTime := castInt 64 (seconds * (-10000000))
  if waitTime ≥ 0 then s
  else if !timerSet then s
  else sleepLoop wakeups s

/-- The message pump `while( ::PeekMessage( ... ) ) { ... ::DispatchMessage( &msg ); }`. -/
def peekMessages (msgs : List (List AppCall)) (s : AppImplMswBasic) : AppImplMswBasic :=
  msgs.foldl (fun acc m => applyAppCalls m acc) s

/-- The constant `defaultSleepWhileSynced`. -/
def defaultSleepWhileSynced : ℚ :=
  166666666666667 / 10000000000000000

/-- The length of the sleep the pacing step asks for (`cinderSleep`). -/
def cinderSleep (currentSeconds : ℚ) (s : AppImplMswBasic) : ℚ :=
  let d := s.mNextFrameTime - currentSeconds
  if s.mSyncMode && !s.mSleep then
    if defaultSleepWhileSynced < d then defaultSleepWhileSynced else d
  else d

/-- The pacing step of the default build (the `#else` branch of `LA4_X3764`). -/
def pace (env : FrameEnv) (currentSeconds : ℚ) (s : AppImplMswBasic) :
    AppImplMswBasic × List Event :=
  if s.mFrameRateEnabled && (s.mNextFrameTime > currentSeconds) then
    (sleep (cinderSleep currentSeconds s) env.timerSet env.messages s,
      [Event.sleep (cinderSleep currentSeconds s)])
  else (peekMessages env.messages s, [Event.peekMessages])

/-- First part of the loop body: `privateBeginFrame__` and the display refresh. -/
def beginFrame (env : FrameEnv) (s : AppImplMswBasic) : AppImplMswBasic × List Event :=
  refreshDisplays env (applyAppCalls env.beginFrame s)

/-- Second part of the loop body, from `privateUpdate__` to the statement that
sets `mEpochReset`. -/
def updateDraw (env : FrameEnv) (spf : ℚ) (epochResetter : Nat) (s : AppImplMswBasic) :
    AppImplMswBasic × List Event :=
  let s1 := applyAppCalls env.update s
  let r := redrawAll env.redraw s1.mWindows s1
  let drawTime := env.drawEnd - env.drawStart
  (triggerReset epochResetter (autoEpochTrigger drawTime spf r.1), r.2)

/-- Third part of the loop body: `privatePostUpdateDraw__` and the epoch check. -/
def postUpdateDraw (env : FrameEnv) (s : AppImplMswBasic) : AppImplMswBasic :=
  epochCheck env.epochTime (applyAppCalls env.postUpdateDraw s)

/-- Last part of the loop body, from `currentSeconds` to `privateEndFrame__`. -/
def endFrame (env : FrameEnv) (spf : ℚ) (s : AppImplMswBasic) : AppImplMswBasic × List Event :=
  let r := pace env env.currentSeconds (advanceNextFrameTime spf env.currentSeconds s)
  (applyAppCalls env.endFrame r.1, r.2)

/-- The body of the `while( !mShouldQuit )` loop of `run`, with the calls it makes.
`none` when one of the wait loops never exits. -/
def frame (env : FrameEnv) (s : AppImplMswBasic) : Option (AppImplMswBasic × List Event) :=
  let spf := secondsPerFrame s
  let epochResetter := s.epochResetCounter
  let b := beginFrame env s
  match waitLoop env.waitUpdate (lockFrame b.1) with
  | none => none
  | some w1 =>
    let u := updateDraw env spf epochResetter w1.1
    match waitLoop env.waitPace (lockFrame (postUpdateDraw env u.1)) with
    | none => none
    | some w2 =>
      let e := endFrame env spf w2.1
      some (e.1,
        [Event.privateBeginFrame] ++ b.2 ++ [Event.privateUpdate] ++ u.2 ++
          [Event.privatePostUpdateDraw] ++ e.2 ++ [Event.privateEndFrame])

/-! ## `run` -/

/-- What the environment contributes to a run. -/
structure RunEnv where
  /-- Calls made by `privateSetup__`. -/
  setup : List AppCall
  /-- Calls made by the handlers of `emitDidBecomeActive`. -/
  didBecomeActive : List AppCall
  /-- Calls made by the resize handler of a window during the initial resize. -/
  resize : WindowImplMswBasic → List Call
  /-- Clock reading that initialises `mNextFrameTime`. -/
  startTime : ℚ
  /-- The environment of the frames, numbered from 0. -/
  frames : Nat → FrameEnv
  /-- Calls made by the handlers of `emitCleanup`. -/
  cleanup : List AppCall

/-- The loop `while( !mShouldQuit ) { ... }` of `run`, with the calls of each
frame. `fuel` bounds the number of frames; `k` is the number of the next frame. -/
def runLoop (frames : Nat → FrameEnv) :
    Nat → Nat → AppImplMswBasic → Option (AppImplMswBasic × List (List Event))
  | 0, _, s => if !s.mShouldQuit then none else some (s, [])
  | fuel + 1, k, s =>
    if !s.mShouldQuit then
      match frame (frames k) s with
      | none => none
      | some f => (runLoop frames fuel (k + 1) f.1).map (fun r => (r.1, f.2 :: r.2))
    else some (s, [])

/-- The part of `run` before the loop, from `privateSetup__` to the
initialisation of `epochResetCounter`. -/
def startup (env : RunEnv) (s : AppImplMswBasic) : AppImplMswBasic × List Event :=
  let s1 := { applyAppCalls env.setup s with mSetupHasBeenCalled := true }
  let s2 := applyAppCalls env.didBecomeActive s1
  let r := resizeAll env.resize s2.mWindows s2
  ({ r.1 with mNextFrameTime := env.startTime, epochResetCounter := 0 },
    [Event.privateSetup, Event.emitDidBecomeActive] ++ r.2)

/-- `AppImplMswBasic::run`: the final state and the calls made, in order. `none`
when the loop has not ended after `fuel` frames or a wait loop never exits. -/
def run (env : RunEnv) (fuel : Nat) (s : AppImplMswBasic) :
    Option (AppImplMswBasic × List Event) :=
  let b := startup env s
  match runLoop env.frames fuel 0 b.1 with
  | none => none
  | some l =>
    some (applyAppCalls env.cleanup l.1, b.2 ++ l.2.flatten ++ [Event.emitCleanup])


/-! ## Vocabulary of the statements -/

/-- The windows that the `createWindow` calls of a callback allocate, in call order. -/
def created : List AppCall → List WindowImplMswBasic
  | [] => []
  | .createWindow w :: cs => w :: created cs
  | _ :: cs => created cs

/-- The two pacing actions of a frame: a call of `sleep` and the message pump. -/
def Event.isPacing : Event → Bool
  | .sleep _ => true
  | .peekMessages => true
  | _ => false

/-- A call of `epochReset`. -/
def Call.isEpochReset : Call → Bool
  | .epochReset _ => true
  | _ => false

/-- A call of `epochReset`. -/
def AppCall.isEpochReset : AppCall → Bool
  | .call c => c.isEpochReset
  | _ => false

/-- The windows whose redraw a list of calls contains, in order. -/
def redrawnWindows : List Event → List WindowImplMswBasic
  | [] => []
  | .redraw w :: es => w :: redrawnWindows es
  | _ :: es => redrawnWindows es

/-- The driver after the redraws of the windows `ws`, one after the other. -/
def redrawMany (redraw : WindowImplMswBasic → List Call) (ws : List WindowImplMswBasic)
    (s : AppImplMswBasic) : AppImplMswBasic :=
  ws.foldl (fun acc w => applyCalls (redraw w) acc) s

/-- The call sequence of a run in which no frame refreshes the displays:
`privateSetup__`, `emitDidBecomeActive`, a resize of the windows `ws`, then
per frame `privateBeginFrame__`, `privateUpdate__`, redraws,
`privatePostUpdateDraw__`, one pacing call, `privateEndFrame__`, and at the end
`emitCleanup`. -/
def PlainRunCalls (tr : List Event) : Prop :=
  ∃ (ws : List WindowImplMswBasic) (frs : List (List Event)),
    tr = [Event.privateSetup, Event.emitDidBecomeActive] ++ ws.map Event.resize ++
      frs.flatten ++ [Event.emitCleanup] ∧
    ∀ f ∈ frs, ∃ (rd : List WindowImplMswBasic) (p : Event), p.isPacing = true ∧
      f = [Event.privateBeginFrame, Event.privateUpdate] ++ rd.map Event.redraw ++
        [Event.privatePostUpdateDraw, p, Event.privateEndFrame]

/-- Whether every `privateBeginFrame__` of a call sequence is followed at once
by `privateUpdate__`. -/
def beginThenUpdate : List Event → Bool
  | [] => true
  | [_] => true
  | a :: b :: es =>
    (a != Event.privateBeginFrame || b == Event.privateUpdate) && beginThenUpdate (b :: es)

/-! ## Concrete inputs -/

/-- A window. -/
def windowA : WindowImplMswBasic := ⟨1, some 10⟩

/-- A second window. -/
def windowB : WindowImplMswBasic := ⟨2, some 20⟩

/-- A third window. -/
def windowC : WindowImplMswBasic := ⟨3, some 30⟩

/-- A driver with three windows, running at 60 frames per second, all modes off. -/
def sampleDriver : AppImplMswBasic :=
  { mWindows := [windowA, windowB, windowC]
    mForegroundWindow := none
    mShouldQuit := false
    mQuitOnLastWindowClosed := true
    mSetupHasBeenCalled := false
    mNeedsToRefreshDisplays := false
    highDensityDisplayEnabled := true
    mFrameRate := 60
    mFrameRateEnabled := true
    mNextFrameTime := 0
    mSyncMode := false
    mFrameLocked := false
    mSleep := false
    mAutoEpochReset := false
    mEpochReset := false
    mDebug := false
    epochResetCounter := 0 }

/-- A frame in which no callback calls the driver, no message arrives and the clock reads 0. -/
def quietFrame : FrameEnv :=
  { beginFrame := []
    resize := fun _ => []
    waitUpdate := []
    update := []
    drawStart := 0
    redraw := fun _ => []
    drawEnd := 0
    postUpdateDraw := []
    epochTime := 0
    waitPace := []
    currentSeconds := 0
    timerSet := true
    messages := []
    endFrame := [] }

/-- A quiet frame, except that the redraw of `windowB` calls `quit()` and the
application agrees. -/
def quitInDraw : FrameEnv :=
  { quietFrame with redraw := fun w => if w = windowB then [Call.quit true] else [] }

/-- A quiet frame whose draw takes one second, with the clock at 5 for the epoch check. -/
def slowDraw : FrameEnv :=
  { quietFrame with drawEnd := 1, epochTime := 5, currentSeconds := 5 }

/-- A quiet frame in which another thread calls `setFrameLock(false)` while the
main thread is in each of the two wait loops. -/
def releasedFrame : FrameEnv :=
  { quietFrame with
    waitUpdate := [[AppCall.call (Call.setFrameLock false)]]
    waitPace := [[AppCall.call (Call.setFrameLock false)]] }

/-- A run of two frames with sync mode off: during the sleep of the first
frame a window reports a display change; in the second frame the update calls
`quit()` and the application agrees. -/
def refreshRun : RunEnv :=
  { setup := []
    didBecomeActive := []
    resize := fun _ => []
    startTime := 0
    frames := fun k =>
      if k = 0 then { quietFrame with messages := [[AppCall.call Call.markDisplaysChanged]] }
      else { quietFrame with update := [AppCall.call (Call.quit true)] }
    cleanup := [] }

/-! # Theorems -/

/-! ## Window list: lemmas -/

theorem find_le_length (l : List WindowImplMswBasic) (w : WindowImplMswBasic) :
    find l w ≤ l.length := by
  induction l with
  | nil => simp [find]
  | cons x xs ih =>
    simp only [find]
    split
    · simp
    · simpa using ih

theorem find_eq_length_iff (l : List WindowImplMswBasic) (w : WindowImplMswBasic) :
    find l w = l.length ↔ w ∉ l := by
  induction l with
  | nil => simp [find]
  | cons x xs ih =>
    simp only [find]
    by_cases h : x = w
    · subst h; simp
    · have h2 : ¬ w = x := fun e => h e.symm
      simp [h, h2, ih]

theorem eraseIdx_find_split (l : List WindowImplMswBasic) (w : WindowImplMswBasic)
    (h : w ∈ l) :
    ∃ l1 l2, l = l1 ++ w :: l2 ∧ w ∉ l1 ∧ l.eraseIdx (find l w) = l1 ++ l2 := by
  induction l with
  | nil => simp at h
  | cons x xs ih =>
    by_cases hx : x = w
    · subst hx
      exact ⟨[], xs, by simp, by simp, by simp [find]⟩
    · have hmem : w ∈ xs := by
        rcases List.mem_cons.mp h with h1 | h1
        · exact absurd h1.symm hx
        · exact h1
      obtain ⟨l1, l2, e, hn, he⟩ := ih hmem
      refine ⟨x :: l1, l2, by simp [e], ?_, ?_⟩
      · simp only [List.mem_cons, not_or]
        exact ⟨fun e => hx e.symm, hn⟩
      · simp only [find, hx, if_false, List.eraseIdx_cons_succ, he, List.cons_append]

theorem advance_eq_drop (l : List WindowImplMswBasic) (n : Nat) : advance l n = l.drop n := by
  induction l generalizing n with
  | nil => cases n <;> simp [advance]
  | cons x xs ih => cases n <;> simp [advance, ih]

theorem closeWindow_mWindows (w : WindowImplMswBasic) (s : AppImplMswBasic) :
    (closeWindow w s).1.mWindows = s.mWindows.eraseIdx (find s.mWindows w) := by
  by_cases h : find s.mWindows w = s.mWindows.length
  · have e : s.mWindows.eraseIdx (find s.mWindows w) = s.mWindows :=
      List.eraseIdx_of_length_le (by omega)
    rw [e]
    simp only [closeWindow, h, ne_eq, not_true_eq_false, if_false]
    split <;> rfl
  · simp only [closeWindow, h, ne_eq, not_false_eq_true, if_true]
    split <;> simp

theorem closeWindow_events (w : WindowImplMswBasic) (s : AppImplMswBasic) :
    (closeWindow w s).2 =
      if w ∈ s.mWindows then [Event.emitClose w, Event.privateClose w] else [] := by
  by_cases h : find s.mWindows w = s.mWindows.length
  · have hm : w ∉ s.mWindows := (find_eq_length_iff _ _).mp h
    simp only [closeWindow, h, ne_eq, not_true_eq_false, if_false, hm]
    split <;> simp
  · have hm : w ∈ s.mWindows := by
      by_contra hc
      exact h ((find_eq_length_iff _ _).mpr hc)
    simp only [closeWindow, h, ne_eq, not_false_eq_true, if_true, hm]
    split <;> simp

theorem closeWindow_mShouldQuit (w : WindowImplMswBasic) (s : AppImplMswBasic) :
    (closeWindow w s).1.mShouldQuit =
      (s.mShouldQuit ||
        ((closeWindow w s).1.mWindows.isEmpty && s.mQuitOnLastWindowClosed)) := by
  rw [closeWindow_mWindows]
  by_cases h : find s.mWindows w = s.mWindows.length
  · have e : s.mWindows.eraseIdx (find s.mWindows w) = s.mWindows :=
      List.eraseIdx_of_length_le (by omega)
    rw [e]
    simp only [closeWindow, h, ne_eq, not_true_eq_false, if_false]
    split <;> rename_i hc
    · simp [hc]
    · simp only [Bool.not_eq_true] at hc
      simp [hc]
  · simp only [closeWindow, h, ne_eq, not_false_eq_true, if_true]
    split <;> rename_i hc
    · simp [hc]
    · simp only [Bool.not_eq_true] at hc
      simp [hc]

/-- C4. `quit()` always quits when the application agrees: when
`privateEmitShouldQuit()` returns true the should-quit flag is true afterwards,
whatever `mQuitOnLastWindowClosed` and the window list are, and nothing else
changes; when it returns false the driver is left unchanged, flag included. -/
theorem quit_spec (s : AppImplMswBasic) :
    (quit true s).mShouldQuit = true ∧
    quit true s = { s with mShouldQuit := true } ∧
    quit false s = s := by
  simp [quit]

/-- C5. `closeWindow(w)` on the window list. When `w` is in the list the close
event is emitted for it once, exactly one entry (the first equal to `w`) is
removed, the others keep their order and `getNumWindows()` goes down by one.
When `w` is not in the list, the list is unchanged and no call is made. In
both cases the should-quit flag is afterwards true exactly when it was true
before or the list is now empty and quit-on-last-window-closed is enabled. -/
theorem closeWindow_spec (w : WindowImplMswBasic) (s : AppImplMswBasic) :
    (w ∈ s.mWindows →
      (closeWindow w s).2.count (Event.emitClose w) = 1 ∧
      (∃ l1 l2, s.mWindows = l1 ++ w :: l2 ∧ w ∉ l1 ∧ (closeWindow w s).1.mWindows = l1 ++ l2) ∧
      getNumWindows (closeWindow w s).1 + 1 = getNumWindows s) ∧
    (w ∉ s.mWindows →
      (closeWindow w s).1.mWindows = s.mWindows ∧ (closeWindow w s).2 = []) ∧
    ((closeWindow w s).1.mShouldQuit =
      (s.mShouldQuit ||
        ((closeWindow w s).1.mWindows.isEmpty && s.mQuitOnLastWindowClosed))) := by
  refine ⟨?_, ?_, closeWindow_mShouldQuit w s⟩
  · intro hmem
    obtain ⟨l1, l2, e, hn, hx⟩ := eraseIdx_find_split s.mWindows w hmem
    have hwin : (closeWindow w s).1.mWindows = l1 ++ l2 := by
      rw [closeWindow_mWindows]; exact hx
    refine ⟨?_, ⟨l1, l2, e, hn, hwin⟩, ?_⟩
    · rw [closeWindow_events]; simp [hmem]
    · simp only [getNumWindows, hwin, e, List.length_append, List.length_cons]
      omega
  · intro hmem
    have heq : find s.mWindows w = s.mWindows.length := (find_eq_length_iff _ _).mpr hmem
    constructor
    · rw [closeWindow_mWindows]
      exact List.eraseIdx_of_length_le (by omega)
    · rw [closeWindow_events]; simp [hmem]

/-! ## Calls and the window list -/

theorem call_mWindows (c : Call) (s : AppImplMswBasic) :
    (c.apply s).mWindows = s.mWindows := by
  cases c <;> simp [Call.apply, Cinder.quit, Cinder.setFrameRate, Cinder.disableFrameRate,
    Cinder.setFrameLock, Cinder.enableAutoEpochReset, Cinder.epochReset, Cinder.setSyncMode,
    Cinder.setDebug, Cinder.setForegroundWindow, Cinder.markDisplaysChanged]
  split <;> rfl

theorem applyCalls_nil (s : AppImplMswBasic) : applyCalls [] s = s := rfl

theorem applyCalls_cons (c : Call) (cs : List Call) (s : AppImplMswBasic) :
    applyCalls (c :: cs) s = applyCalls cs (c.apply s) := rfl

theorem applyAppCalls_nil (s : AppImplMswBasic) : applyAppCalls [] s = s := rfl

theorem applyAppCalls_cons (c : AppCall) (cs : List AppCall) (s : AppImplMswBasic) :
    applyAppCalls (c :: cs) s = applyAppCalls cs (c.apply s) := rfl

theorem applyCalls_mWindows (cs : List Call) (s : AppImplMswBasic) :
    (applyCalls cs s).mWindows = s.mWindows := by
  induction cs generalizing s with
  | nil => rfl
  | cons c cs ih => rw [applyCalls_cons, ih, call_mWindows]

theorem applyAppCalls_mWindows_sublist (cs : List AppCall) (s : AppImplMswBasic) :
    ((applyAppCalls cs s).mWindows).Sublist (s.mWindows ++ created cs) := by
  induction cs generalizing s with
  | nil => simp [applyAppCalls_nil, created]
  | cons c cs ih =>
    rw [applyAppCalls_cons]
    refine (ih (c.apply s)).trans ?_
    cases c with
    | call c =>
      simp only [AppCall.apply, call_mWindows, created]
      exact List.Sublist.refl _
    | createWindow w =>
      simp only [AppCall.apply, Cinder.createWindow, created, List.append_assoc,
        List.singleton_append]
      exact List.Sublist.refl _
    | closeWindow w =>
      simp only [AppCall.apply, closeWindow_mWindows, created]
      exact List.Sublist.append (List.eraseIdx_sublist _ _) (List.Sublist.refl _)

/-- C6. `getWindowIndex` is total and checks the index against `getNumWindows`:
an index at or past the number of windows gives the null reference, an index
below it gives the `mWindowRef` of the entry at that position of the window
list, and the driver is left as it was. The window list itself lists the
windows in creation order with the closed ones removed: after any calls it is
a sublist of the old list followed by the windows created since. -/
theorem getWindowIndex_spec (index : Nat) (s : AppImplMswBasic) :
    (getWindowIndex index s).2 = s ∧
    (getNumWindows s ≤ index → (getWindowIndex index s).1 = none) ∧
    (∀ h : index < getNumWindows s,
      (getWindowIndex index s).1 = (s.mWindows.get ⟨index, h⟩).mWindowRef) ∧
    (∀ cs : List AppCall,
      ((applyAppCalls cs s).mWindows).Sublist (s.mWindows ++ created cs)) := by
  refine ⟨?_, ?_, ?_, fun cs => applyAppCalls_mWindows_sublist cs s⟩
  · unfold getWindowIndex
    split
    · rfl
    · split <;> rfl
  · intro h
    unfold getNumWindows at h
    simp [getWindowIndex, h]
  · intro h
    have h1 : index < s.mWindows.length := h
    have h2 : ¬ index ≥ s.mWindows.length := by omega
    have h3 : advance s.mWindows index = s.mWindows.get ⟨index, h1⟩ :: s.mWindows.drop (index + 1) := by
      rw [advance_eq_drop]
      exact List.drop_eq_getElem_cons h1
    simp only [getWindowIndex, h2, if_false, h3]

/-! ## The pacing update -/

theorem castInt_eq_floor (x : ℚ) (h0 : 0 ≤ x) (h1 : x < 2 ^ 31) : castInt 32 x = ⌊x⌋ := by
  have hnum : 0 ≤ x.num := Rat.num_nonneg.mpr h0
  have hden : (0 : Int) ≤ (x.den : Int) := Int.ofNat_nonneg _
  have ht : Int.tdiv x.num x.den = ⌊x⌋ := by
    rw [Int.tdiv_eq_ediv hnum hden, Rat.floor_def]
  have hlo : (0 : Int) ≤ ⌊x⌋ := Int.floor_nonneg.mpr h0
  have hhi : ⌊x⌋ < (2 : Int) ^ 31 := by
    rw [Int.floor_lt]
    exact_mod_cast h1
  unfold castInt
  simp only [ht]
  rw [if_pos]
  constructor
  · have : -(2 : Int) ^ (32 - 1) ≤ 0 := by norm_num
    omega
  · simpa using hhi

theorem advanceNextFrameTime_le_one (spf currentSeconds : ℚ) (s : AppImplMswBasic)
    (h : currentSeconds - s.mNextFrameTime ≤ 1) :
    (advanceNextFrameTime spf currentSeconds s).mNextFrameTime = s.mNextFrameTime + spf := by
  have h' : ¬ currentSeconds - s.mNextFrameTime > 1 := not_lt.mpr h
  simp [advanceNextFrameTime, h']

theorem advanceNextFrameTime_gt_one (spf currentSeconds : ℚ) (s : AppImplMswBasic)
    (h : currentSeconds - s.mNextFrameTime > 1) :
    (advanceNextFrameTime spf currentSeconds s).mNextFrameTime =
      s.mNextFrameTime +
        (castInt 32 ((currentSeconds - s.mNextFrameTime) / spf) : ℚ) * spf + spf := by
  simp [advanceNextFrameTime, h]

theorem advanceNextFrameTime_ahead (rate currentSeconds : ℚ) (s : AppImplMswBasic)
    (hrate : 0 < rate)
    (hlag : currentSeconds - s.mNextFrameTime > 1)
    (hfit : (currentSeconds - s.mNextFrameTime) / (1 / rate) < 2 ^ 31) :
    currentSeconds < (advanceNextFrameTime (1 / rate) currentSeconds s).mNextFrameTime := by
  have hspf : (0 : ℚ) < 1 / rate := by positivity
  have hq0 : 0 ≤ (currentSeconds - s.mNextFrameTime) / (1 / rate) :=
    div_nonneg (by linarith) hspf.le
  rw [advanceNextFrameTime_gt_one _ _ _ hlag, castInt_eq_floor _ hq0 hfit]
  have hfu : currentSeconds - s.mNextFrameTime
      < ((⌊(currentSeconds - s.mNextFrameTime) / (1 / rate)⌋ : ℚ) + 1) * (1 / rate) := by
    have := Int.lt_floor_add_one ((currentSeconds - s.mNextFrameTime) / (1 / rate))
    calc currentSeconds - s.mNextFrameTime
        = (currentSeconds - s.mNextFrameTime) / (1 / rate) * (1 / rate) :=
          (div_mul_cancel₀ _ hspf.ne').symm
      _ < ((⌊(currentSeconds - s.mNextFrameTime) / (1 / rate)⌋ : ℚ) + 1) * (1 / rate) :=
          mul_lt_mul_of_pos_right this hspf
  linarith

/-- C3, as stated, fails when the number of frames to skip does not fit the
`int` it is converted to. At 10000 frames per second, schedule at 0 and clock
at 300000, the lag exceeds one second and `elapsed / secondsPerFrame` is
`3 * 10^9`, above `2^31`; the conversion gives `-2^31`, the new schedule is
`-214748.3647`, and the clock is not before it. -/
theorem advanceNextFrameTime_after_freeze_counterexample :
    (0 : ℚ) < 10000 ∧
    (300000 : ℚ) - sampleDriver.mNextFrameTime > 1 ∧
    castInt 32 ((300000 - sampleDriver.mNextFrameTime) / (1 / 10000)) = -2 ^ 31 ∧
    (advanceNextFrameTime (1 / 10000) 300000 sampleDriver).mNextFrameTime
      = -2147483647 / 10000 ∧
    ¬ ((300000 : ℚ) < (advanceNextFrameTime (1 / 10000) 300000 sampleDriver).mNextFrameTime) := by
  decide!

/-- C3, amended. Drift correction after a freeze, with rational time values,
`mFrameRate > 0` and `secondsPerFrame = 1 / mFrameRate`: for every frame whose
lag `currentSeconds - mNextFrameTime` exceeds one second and whose number of
frames to skip fits an `int` (`elapsed / secondsPerFrame < 2^31`), the update
leaves `currentSeconds < mNextFrameTime' ≤ currentSeconds + secondsPerFrame`,
and `mNextFrameTime' - mNextFrameTime` is
`floor (elapsed / secondsPerFrame) + 1` periods, a positive number of them. -/
theorem advanceNextFrameTime_after_freeze (rate currentSeconds : ℚ) (s : AppImplMswBasic)
    (hrate : 0 < rate)
    (hlag : currentSeconds - s.mNextFrameTime > 1)
    (hfit : (currentSeconds - s.mNextFrameTime) / (1 / rate) < 2 ^ 31) :
    currentSeconds < (advanceNextFrameTime (1 / rate) currentSeconds s).mNextFrameTime ∧
    (advanceNextFrameTime (1 / rate) currentSeconds s).mNextFrameTime
      ≤ currentSeconds + 1 / rate ∧
    (advanceNextFrameTime (1 / rate) currentSeconds s).mNextFrameTime - s.mNextFrameTime
      = ((⌊(currentSeconds - s.mNextFrameTime) / (1 / rate)⌋ + 1 : ℤ) : ℚ) * (1 / rate) ∧
    0 < ⌊(currentSeconds - s.mNextFrameTime) / (1 / rate)⌋ + 1 := by
  have hspf : (0 : ℚ) < 1 / rate := by positivity
  have hq0 : 0 ≤ (currentSeconds - s.mNextFrameTime) / (1 / rate) :=
    div_nonneg (by linarith) hspf.le
  rw [advanceNextFrameTime_gt_one _ _ _ hlag, castInt_eq_floor _ hq0 hfit]
  have hfl : (⌊(currentSeconds - s.mNextFrameTime) / (1 / rate)⌋ : ℚ) * (1 / rate)
      ≤ currentSeconds - s.mNextFrameTime := by
    have := Int.floor_le ((currentSeconds - s.mNextFrameTime) / (1 / rate))
    calc (⌊(currentSeconds - s.mNextFrameTime) / (1 / rate)⌋ : ℚ) * (1 / rate)
        ≤ (currentSeconds - s.mNextFrameTime) / (1 / rate) * (1 / rate) :=
          mul_le_mul_of_nonneg_right this hspf.le
      _ = currentSeconds - s.mNextFrameTime := div_mul_cancel₀ _ hspf.ne'
  have hfu : currentSeconds - s.mNextFrameTime
      < ((⌊(currentSeconds - s.mNextFrameTime) / (1 / rate)⌋ : ℚ) + 1) * (1 / rate) := by
    have := Int.lt_floor_add_one ((currentSeconds - s.mNextFrameTime) / (1 / rate))
    calc currentSeconds - s.mNextFrameTime
        = (currentSeconds - s.mNextFrameTime) / (1 / rate) * (1 / rate) :=
          (div_mul_cancel₀ _ hspf.ne').symm
      _ < ((⌊(currentSeconds - s.mNextFrameTime) / (1 / rate)⌋ : ℚ) + 1) * (1 / rate) :=
          mul_lt_mul_of_pos_right this hspf
  refine ⟨?_, ?_, ?_, ?_⟩
  · linarith
  · linarith
  · push_cast
    ring
  · have : (0 : Int) ≤ ⌊(currentSeconds - s.mNextFrameTime) / (1 / rate)⌋ :=
      Int.floor_nonneg.mpr hq0
    omega

/-- Witness of the amended C3: 60 frames per second, schedule at 0, clock at 2. -/
theorem advanceNextFrameTime_after_freeze_witness :
    (2 : ℚ) < (advanceNextFrameTime (1 / 60) 2 sampleDriver).mNextFrameTime ∧
    (advanceNextFrameTime (1 / 60) 2 sampleDriver).mNextFrameTime ≤ 2 + 1 / 60 ∧
    (advanceNextFrameTime (1 / 60) 2 sampleDriver).mNextFrameTime - sampleDriver.mNextFrameTime
      = ((⌊(2 - sampleDriver.mNextFrameTime) / (1 / 60)⌋ + 1 : ℤ) : ℚ) * (1 / 60) ∧
    0 < ⌊((2 : ℚ) - sampleDriver.mNextFrameTime) / (1 / 60)⌋ + 1 :=
  advanceNextFrameTime_after_freeze 60 2 sampleDriver (by norm_num)
    (by norm_num [sampleDriver]) (by norm_num [sampleDriver])

/-- C8, as stated, fails in two ways. Below one frame per second: at half a
frame per second (`secondsPerFrame = 2`), schedule at 0 and clock at 3/2, no
frame is skipped, the new schedule is 2 and
`currentSeconds - mNextFrameTime' = -1/2`, which is above
`1 - secondsPerFrame = -1`. And when the number of frames to skip does not fit
an `int`: at 60 frames per second, schedule at 0 and clock at 36000000,
`elapsed / secondsPerFrame` is `2160000000`, above `2^31`, the new schedule is
`-2147483647/60` and the schedule is left more than a second behind the
clock. -/
theorem advanceNextFrameTime_lag_counterexample :
    (0 : ℚ) < 1 / 2 ∧
    (3 / 2 - sampleDriver.mNextFrameTime) / (1 / (1 / 2)) < (2 : ℚ) ^ 31 ∧
    (advanceNextFrameTime (1 / (1 / 2)) (3 / 2) sampleDriver).mNextFrameTime = 2 ∧
    ¬ ((3 / 2 : ℚ) - (advanceNextFrameTime (1 / (1 / 2)) (3 / 2) sampleDriver).mNextFrameTime
        ≤ 1 - 1 / (1 / 2)) ∧
    (0 : ℚ) < 60 ∧
    (advanceNextFrameTime (1 / 60) 36000000 sampleDriver).mNextFrameTime = -2147483647 / 60 ∧
    ¬ ((36000000 : ℚ) - (advanceNextFrameTime (1 / 60) 36000000 sampleDriver).mNextFrameTime
        ≤ 1 - 1 / 60) ∧
    ¬ ((36000000 : ℚ) - (advanceNextFrameTime (1 / 60) 36000000 sampleDriver).mNextFrameTime
        < 1) := by
  decide!

/-- C8, amended. With rational time values and `mFrameRate > 0`, for every
frame whose number of frames to skip fits an `int` (when the lag exceeds one
second, `elapsed / secondsPerFrame < 2^31`): a frame whose lag is at most one
second advances `mNextFrameTime` by exactly one `secondsPerFrame`; when
`mFrameRate ≥ 1`, or when the lag is at most one second,
`currentSeconds - mNextFrameTime' ≤ 1 - secondsPerFrame`; and for every
positive frame rate `currentSeconds - mNextFrameTime' < 1`: the schedule is
not left a full second behind the clock. -/
theorem advanceNextFrameTime_lag (rate currentSeconds : ℚ) (s : AppImplMswBasic)
    (hrate : 0 < rate)
    (hfit : currentSeconds - s.mNextFrameTime > 1 →
      (currentSeconds - s.mNextFrameTime) / (1 / rate) < 2 ^ 31) :
    (currentSeconds - s.mNextFrameTime ≤ 1 →
      (advanceNextFrameTime (1 / rate) currentSeconds s).mNextFrameTime
        = s.mNextFrameTime + 1 / rate) ∧
    (1 ≤ rate ∨ currentSeconds - s.mNextFrameTime ≤ 1 →
      currentSeconds - (advanceNextFrameTime (1 / rate) currentSeconds s).mNextFrameTime
        ≤ 1 - 1 / rate) ∧
    currentSeconds - (advanceNextFrameTime (1 / rate) currentSeconds s).mNextFrameTime < 1 := by
  have hspf : (0 : ℚ) < 1 / rate := by positivity
  by_cases hlag : currentSeconds - s.mNextFrameTime ≤ 1
  · have e := advanceNextFrameTime_le_one (1 / rate) currentSeconds s hlag
    refine ⟨fun _ => e, fun _ => ?_, ?_⟩ <;> rw [e] <;> linarith
  · have hgt : currentSeconds - s.mNextFrameTime > 1 := not_le.mp hlag
    have h1 := advanceNextFrameTime_ahead rate currentSeconds s hrate hgt (hfit hgt)
    refine ⟨fun h => absurd h hlag, fun h => ?_, by linarith⟩
    rcases h with h | h
    · have : 1 / rate ≤ 1 := by
        rw [div_le_iff₀ hrate]
        linarith
      linarith
    · exact absurd h hlag

/-- Witness of the amended C8: 60 frames per second, schedule at 0, clock at 2. -/
theorem advanceNextFrameTime_lag_witness :
    ((2 : ℚ) - sampleDriver.mNextFrameTime ≤ 1 →
      (advanceNextFrameTime (1 / 60) 2 sampleDriver).mNextFrameTime
        = sampleDriver.mNextFrameTime + 1 / 60) ∧
    ((1 : ℚ) ≤ 60 ∨ (2 : ℚ) - sampleDriver.mNextFrameTime ≤ 1 →
      (2 : ℚ) - (advanceNextFrameTime (1 / 60) 2 sampleDriver).mNextFrameTime ≤ 1 - 1 / 60) ∧
    (2 : ℚ) - (advanceNextFrameTime (1 / 60) 2 sampleDriver).mNextFrameTime < 1 :=
  advanceNextFrameTime_lag 60 2 sampleDriver (by norm_num)
    (fun _ => by norm_num [sampleDriver])

/-! ## The calls of a frame -/

theorem resizeAll_events (f : WindowImplMswBasic → List Call) (ws : List WindowImplMswBasic)
    (s : AppImplMswBasic) : (resizeAll f ws s).2 = ws.map Event.resize := by
  induction ws generalizing s with
  | nil => rfl
  | cons w ws ih => simp [resizeAll, ih]

theorem refreshDisplays_events (env : FrameEnv) (s : AppImplMswBasic) :
    (refreshDisplays env s).2 =
      if s.mNeedsToRefreshDisplays && s.highDensityDisplayEnabled then
        s.mWindows.map Event.resize
      else [] := by
  unfold refreshDisplays
  cases h1 : s.mNeedsToRefreshDisplays <;> cases h2 : s.highDensityDisplayEnabled <;>
    simp [resizeAll_events]

theorem redrawAll_events (f : WindowImplMswBasic → List Call) (ws : List WindowImplMswBasic)
    (s : AppImplMswBasic) :
    ∃ rd, rd <+: ws ∧ (redrawAll f ws s).2 = rd.map Event.redraw := by
  induction ws generalizing s with
  | nil => exact ⟨[], List.nil_prefix, rfl⟩
  | cons w ws ih =>
    cases hq : s.mShouldQuit
    · obtain ⟨rd, hp, he⟩ := ih (applyCalls (f w) s)
      refine ⟨w :: rd, ?_, ?_⟩
      · exact (List.prefix_cons_inj w).mpr hp
      · simp [redrawAll, hq, he]
    · obtain ⟨rd, hp, he⟩ := ih s
      have hnil : (redrawAll f ws s).2 = [] := by
        clear hp he ih
        induction ws with
        | nil => rfl
        | cons x xs ih2 => simp [redrawAll, hq, ih2]
      exact ⟨[], List.nil_prefix, by simp [redrawAll, hq, hnil]⟩

theorem filter_isPacing_map_resize (ws : List WindowImplMswBasic) :
    (ws.map Event.resize).filter Event.isPacing = [] := by
  induction ws with
  | nil => rfl
  | cons w ws ih => simp [Event.isPacing, ih]

theorem filter_isPacing_map_redraw (ws : List WindowImplMswBasic) :
    (ws.map Event.redraw).filter Event.isPacing = [] := by
  induction ws with
  | nil => rfl
  | cons w ws ih => simp [Event.isPacing, ih]

theorem pace_events (env : FrameEnv) (currentSeconds : ℚ) (s : AppImplMswBasic) :
    (pace env currentSeconds s).2 =
      if s.mFrameRateEnabled = true ∧ s.mNextFrameTime > currentSeconds then
        [Event.sleep (cinderSleep currentSeconds s)]
      else [Event.peekMessages] := by
  unfold pace
  by_cases h : s.mFrameRateEnabled = true ∧ s.mNextFrameTime > currentSeconds
  · simp [h]
  · rw [if_neg h, if_neg]
    simpa using h

theorem frame_eq_some (env : FrameEnv) (s : AppImplMswBasic)
    (r : AppImplMswBasic × List Event) (h : frame env s = some r) :
    ∃ w1 w2,
      waitLoop env.waitUpdate (lockFrame (beginFrame env s).1) = some w1 ∧
      waitLoop env.waitPace (lockFrame (postUpdateDraw env
        (updateDraw env (secondsPerFrame s) s.epochResetCounter w1.1).1)) = some w2 ∧
      r.1 = (endFrame env (secondsPerFrame s) w2.1).1 ∧
      r.2 = [Event.privateBeginFrame] ++ (beginFrame env s).2 ++ [Event.privateUpdate] ++
        (updateDraw env (secondsPerFrame s) s.epochResetCounter w1.1).2 ++
        [Event.privatePostUpdateDraw] ++ (endFrame env (secondsPerFrame s) w2.1).2 ++
        [Event.privateEndFrame] := by
  unfold frame at h
  simp only at h
  split at h
  · exact absurd h (by simp)
  · rename_i w1 hw1
    split at h
    · exact absurd h (by simp)
    · rename_i w2 hw2
      refine ⟨w1, w2, hw1, hw2, ?_, ?_⟩
      · rw [← Option.some.inj h]
      · rw [← Option.some.inj h]

/-- C2. The pacing step of the default build, for the state `s` that has
`mNextFrameTime` advanced. When frame-rate limiting is enabled and
`mNextFrameTime > currentSeconds` the step is one call `sleep(d)` with `d > 0`
and `d = mNextFrameTime - currentSeconds`, replaced by its minimum with
`0.0166666666666667` when sync mode is on and sleeping is disabled; otherwise
it is the message pump, without a call of `sleep`. With frame-rate limiting
disabled the step never sleeps. Every frame that completes makes exactly one
pacing call, the one of this step on the driver that leaves the second wait
loop, with `mNextFrameTime` advanced. -/
theorem pace_spec (env : FrameEnv) (s : AppImplMswBasic) :
    (∀ currentSeconds : ℚ,
      (s.mFrameRateEnabled = true ∧ s.mNextFrameTime > currentSeconds →
        0 < cinderSleep currentSeconds s ∧
        cinderSleep currentSeconds s =
          (if s.mSyncMode = true ∧ s.mSleep = false then
            min (s.mNextFrameTime - currentSeconds) defaultSleepWhileSynced
          else s.mNextFrameTime - currentSeconds) ∧
        pace env currentSeconds s =
          (sleep (cinderSleep currentSeconds s) env.timerSet env.messages s,
            [Event.sleep (cinderSleep currentSeconds s)])) ∧
      (¬ (s.mFrameRateEnabled = true ∧ s.mNextFrameTime > currentSeconds) →
        pace env currentSeconds s = (peekMessages env.messages s, [Event.peekMessages])) ∧
      (s.mFrameRateEnabled = false →
        ∀ d, Event.sleep d ∉ (pace env currentSeconds s).2)) ∧
    (∀ r, frame env s = some r →
      ∃ w1 w2 : AppImplMswBasic × Nat,
        waitLoop env.waitUpdate (lockFrame (beginFrame env s).1) = some w1 ∧
        waitLoop env.waitPace (lockFrame (postUpdateDraw env
          (updateDraw env (secondsPerFrame s) s.epochResetCounter w1.1).1)) = some w2 ∧
        r.2.filter Event.isPacing =
          (pace env env.currentSeconds
            (advanceNextFrameTime (secondsPerFrame s) env.currentSeconds w2.1)).2 ∧
        (r.2.filter Event.isPacing).length = 1) := by
  constructor
  · intro currentSeconds
    refine ⟨?_, ?_, ?_⟩
    · intro h
      have hd : 0 < s.mNextFrameTime - currentSeconds := by linarith [h.2]
      have hdef : (0 : ℚ) < defaultSleepWhileSynced := by norm_num [defaultSleepWhileSynced]
      refine ⟨?_, ?_, ?_⟩
      · unfold cinderSleep
        simp only
        split
        · split
          · exact hdef
          · exact hd
        · exact hd
      · unfold cinderSleep
        simp only
        by_cases hc : s.mSyncMode = true ∧ s.mSleep = false
        · have hc' : (s.mSyncMode && !s.mSleep) = true := by simp [hc.1, hc.2]
          rw [if_pos hc', if_pos hc]
          by_cases hlt : defaultSleepWhileSynced < s.mNextFrameTime - currentSeconds
          · rw [if_pos hlt, min_eq_right hlt.le]
          · rw [if_neg hlt, min_eq_left (not_lt.mp hlt)]
        · have hc' : ¬ (s.mSyncMode && !s.mSleep) = true := by
            intro hx
            apply hc
            simpa using hx
          rw [if_neg hc', if_neg hc]
      · unfold pace
        rw [if_pos]
        simpa using h
    · intro h
      unfold pace
      rw [if_neg]
      simpa using h
    · intro h d
      rw [pace_events]
      simp [h]
  · intro r h
    obtain ⟨w1, w2, hw1, hw2, _, htr⟩ := frame_eq_some env s r h
    refine ⟨w1, w2, hw1, hw2, ?_⟩
    obtain ⟨rd, _, hrd⟩ := redrawAll_events env.redraw
      (applyAppCalls env.update w1.1).mWindows (applyAppCalls env.update w1.1)
    have hb : (beginFrame env s).2.filter Event.isPacing = [] := by
      unfold beginFrame
      rw [refreshDisplays_events]
      split
      · exact filter_isPacing_map_resize _
      · rfl
    have hu : (updateDraw env (secondsPerFrame s) s.epochResetCounter w1.1).2.filter
        Event.isPacing = [] := by
      unfold updateDraw
      simp only [hrd]
      exact filter_isPacing_map_redraw _
    have he : (endFrame env (secondsPerFrame s) w2.1).2 =
        (pace env env.currentSeconds
          (advanceNextFrameTime (secondsPerFrame s) env.currentSeconds w2.1)).2 := rfl
    have hp : ∀ x : AppImplMswBasic, (pace env env.currentSeconds x).2.filter Event.isPacing
        = (pace env env.currentSeconds x).2 ∧ (pace env env.currentSeconds x).2.length = 1 := by
      intro x
      rw [pace_events]
      split <;> simp [Event.isPacing]
    have hf : r.2.filter Event.isPacing =
        (pace env env.currentSeconds
          (advanceNextFrameTime (secondsPerFrame s) env.currentSeconds w2.1)).2 := by
      rw [htr]
      simp only [List.filter_append, hb, hu, he, (hp _).1]
      simp [Event.isPacing]
    exact ⟨hf, by rw [hf]; exact (hp _).2⟩

/-- The shortened sleep is reached: sync mode on without sleeping, 30 frames per
second, both wait loops released by another thread after one iteration. The
frame completes and its one pacing call is `sleep(0.0166666666666667)`. -/
theorem frame_released_sleep :
    (frame releasedFrame
        { sampleDriver with mSyncMode := true, mSleep := false, mFrameRate := 30 }).map
      (fun r => r.2.filter Event.isPacing) = some [Event.sleep defaultSleepWhileSynced] ∧
    waitLoop releasedFrame.waitUpdate
        (lockFrame (beginFrame releasedFrame
          { sampleDriver with mSyncMode := true, mSleep := false, mFrameRate := 30 }).1)
      = some (setFrameLock false (lockFrame
          { sampleDriver with mSyncMode := true, mSleep := false, mFrameRate := 30 }), 1) := by
  decide!

/-! ## What the calls leave alone -/

theorem closeWindow_eq (w : WindowImplMswBasic) (s : AppImplMswBasic) :
    (closeWindow w s).1 =
      { s with
        mWindows := s.mWindows.eraseIdx (find s.mWindows w)
        mShouldQuit := s.mShouldQuit ||
          ((s.mWindows.eraseIdx (find s.mWindows w)).isEmpty && s.mQuitOnLastWindowClosed) } := by
  have h1 := closeWindow_mWindows w s
  have h2 := closeWindow_mShouldQuit w s
  rw [h1] at h2
  have h3 : ∀ x : AppImplMswBasic, (closeWindow w s).1 = x →
      x = { s with mWindows := x.mWindows, mShouldQuit := x.mShouldQuit } := by
    intro x hx
    subst hx
    unfold closeWindow
    simp only
    split <;> split <;> rfl
  rw [h3 _ rfl, h1, h2]

theorem call_epochResetCounter (c : Call) (s : AppImplMswBasic) :
    (c.apply s).epochResetCounter = s.epochResetCounter := by
  cases c <;> simp [Call.apply, Cinder.quit, Cinder.setFrameRate, Cinder.disableFrameRate,
    Cinder.setFrameLock, Cinder.enableAutoEpochReset, Cinder.epochReset, Cinder.setSyncMode,
    Cinder.setDebug, Cinder.setForegroundWindow, Cinder.markDisplaysChanged]
  split <;> rfl

theorem appCall_epochResetCounter (c : AppCall) (s : AppImplMswBasic) :
    (c.apply s).epochResetCounter = s.epochResetCounter := by
  cases c with
  | call c => exact call_epochResetCounter c s
  | createWindow w => rfl
  | closeWindow w => simp only [AppCall.apply, closeWindow_eq]

theorem applyCalls_epochResetCounter (cs : List Call) (s : AppImplMswBasic) :
    (applyCalls cs s).epochResetCounter = s.epochResetCounter := by
  induction cs generalizing s with
  | nil => rfl
  | cons c cs ih => rw [applyCalls_cons, ih, call_epochResetCounter]

theorem applyAppCalls_epochResetCounter (cs : List AppCall) (s : AppImplMswBasic) :
    (applyAppCalls cs s).epochResetCounter = s.epochResetCounter := by
  induction cs generalizing s with
  | nil => rfl
  | cons c cs ih => rw [applyAppCalls_cons, ih, appCall_epochResetCounter]

theorem resizeAll_epochResetCounter (f : WindowImplMswBasic → List Call)
    (ws : List WindowImplMswBasic) (s : AppImplMswBasic) :
    (resizeAll f ws s).1.epochResetCounter = s.epochResetCounter := by
  induction ws generalizing s with
  | nil => rfl
  | cons w ws ih => simp only [resizeAll, ih, applyCalls_epochResetCounter]

theorem beginFrame_epochResetCounter (env : FrameEnv) (s : AppImplMswBasic) :
    (beginFrame env s).1.epochResetCounter = s.epochResetCounter := by
  unfold beginFrame refreshDisplays
  split
  · simp only
    split
    · rw [resizeAll_epochResetCounter]
      exact applyAppCalls_epochResetCounter _ _
    · exact applyAppCalls_epochResetCounter _ _
  · exact applyAppCalls_epochResetCounter _ _

theorem lockFrame_epochResetCounter (s : AppImplMswBasic) :
    (lockFrame s).epochResetCounter = s.epochResetCounter := by
  unfold lockFrame
  split <;> rfl

theorem waitLoop_epochResetCounter (others : List (List AppCall)) (s : AppImplMswBasic)
    (w : AppImplMswBasic × Nat) (h : waitLoop others s = some w) :
    w.1.epochResetCounter = s.epochResetCounter := by
  induction others generalizing s w with
  | nil =>
    unfold waitLoop at h
    split at h
    · exact absurd h (by simp)
    · rw [← Option.some.inj h]
  | cons b bs ih =>
    unfold waitLoop at h
    split at h
    · cases hr : waitLoop bs (applyAppCalls b s) with
      | none => rw [hr] at h; exact absurd h (by simp)
      | some x =>
        rw [hr] at h
        simp only [Option.map_some'] at h
        rw [← Option.some.inj h]
        simp only
        rw [ih _ _ hr, applyAppCalls_epochResetCounter]
    · rw [← Option.some.inj h]

/-! ## The lock-step wait points -/

theorem lockFrame_mSyncMode (s : AppImplMswBasic) : (lockFrame s).mSyncMode = s.mSyncMode := by
  unfold lockFrame
  split <;> rfl

theorem lockFrame_mFrameLocked (s : AppImplMswBasic) :
    (lockFrame s).mFrameLocked = s.mSyncMode := by
  unfold lockFrame
  cases h : s.mSyncMode <;> simp

theorem waitLoop_of_sync_off (others : List (List AppCall)) (s : AppImplMswBasic)
    (h : s.mSyncMode = false) : waitLoop others (lockFrame s) = some (lockFrame s, 0) := by
  have hc : ((lockFrame s).mFrameLocked && (lockFrame s).mSyncMode) = false := by
    rw [lockFrame_mSyncMode, h, Bool.and_false]
  cases others <;> simp [waitLoop, hc]

theorem waitLoop_of_sync_on (s : AppImplMswBasic) (h : s.mSyncMode = true) :
    waitLoop [] (lockFrame s) = none := by
  have hc : ((lockFrame s).mFrameLocked && (lockFrame s).mSyncMode) = true := by
    rw [lockFrame_mSyncMode, lockFrame_mFrameLocked, h, Bool.and_self]
  simp [waitLoop, hc]

/-- C10. Before each of the two wait loops the frame-lock flag is overwritten
with the value of the sync-mode flag, whatever it was (a call of
`setFrameLock` before that point has no effect on it). With sync mode off at a
wait point the loop runs zero iterations, and a frame in which sync mode is
off at both wait points completes. With sync mode on at a wait point the flag
is true on reaching the loop, and in a single-threaded execution (no call of
another thread during the loop) the loop, and with it the frame, never exits. -/
theorem lockFrame_waitLoop_spec (s : AppImplMswBasic) :
    (lockFrame s).mFrameLocked = s.mSyncMode ∧
    (∀ lock, lockFrame (setFrameLock lock s) = lockFrame s) ∧
    (s.mSyncMode = false →
      ∀ others, waitLoop others (lockFrame s) = some (lockFrame s, 0)) ∧
    (s.mSyncMode = true →
      (lockFrame s).mFrameLocked = true ∧ waitLoop [] (lockFrame s) = none) ∧
    (∀ env : FrameEnv,
      (beginFrame env s).1.mSyncMode = false →
      (postUpdateDraw env (updateDraw env (secondsPerFrame s) s.epochResetCounter
        (lockFrame (beginFrame env s).1)).1).mSyncMode = false →
      (frame env s).isSome = true) ∧
    (∀ env : FrameEnv,
      env.waitUpdate = [] → (beginFrame env s).1.mSyncMode = true → frame env s = none) ∧
    (∀ (env : FrameEnv) (w1 : AppImplMswBasic × Nat),
      waitLoop env.waitUpdate (lockFrame (beginFrame env s).1) = some w1 →
      env.waitPace = [] →
      (postUpdateDraw env (updateDraw env (secondsPerFrame s) s.epochResetCounter
        w1.1).1).mSyncMode = true →
      frame env s = none) := by
  refine ⟨lockFrame_mFrameLocked s, ?_, fun h others => waitLoop_of_sync_off others s h,
    fun h => ⟨by rw [lockFrame_mFrameLocked, h], waitLoop_of_sync_on s h⟩, ?_, ?_, ?_⟩
  · intro lock
    unfold lockFrame setFrameLock
    simp only
  · intro env h1 h2
    unfold frame
    simp only [waitLoop_of_sync_off _ _ h1, waitLoop_of_sync_off _ _ h2, Option.isSome_some]
  · intro env he h1
    unfold frame
    simp only [he, waitLoop_of_sync_on _ h1]
  · intro env w1 hw he h2
    unfold frame
    simp only [hw, he, waitLoop_of_sync_on _ h2]

/-- Both cases occur: with sync mode off the quiet frame completes, with sync
mode on and no other thread it never does, also when `setFrameLock(false)` is
called during `privateBeginFrame__`. -/
theorem frame_sync_examples :
    (frame quietFrame sampleDriver).isSome = true ∧
    frame quietFrame { sampleDriver with mSyncMode := true } = none ∧
    frame { quietFrame with beginFrame := [AppCall.call (Call.setFrameLock false)] }
      { sampleDriver with mSyncMode := true } = none := by
  decide!

/-! ## The should-quit flag is never cleared -/

theorem call_mShouldQuit (c : Call) (s : AppImplMswBasic) (h : s.mShouldQuit = true) :
    (c.apply s).mShouldQuit = true := by
  cases c <;> simp [Call.apply, Cinder.quit, Cinder.setFrameRate, Cinder.disableFrameRate,
    Cinder.setFrameLock, Cinder.enableAutoEpochReset, Cinder.epochReset, Cinder.setSyncMode,
    Cinder.setDebug, Cinder.setForegroundWindow, Cinder.markDisplaysChanged, h]
  split <;> simp [h]

theorem appCall_mShouldQuit (c : AppCall) (s : AppImplMswBasic)
    (h : s.mShouldQuit = true) : (c.apply s).mShouldQuit = true := by
  cases c with
  | call c => exact call_mShouldQuit c s h
  | createWindow w => exact h
  | closeWindow w => simp only [AppCall.apply, closeWindow_eq, h, Bool.true_or]

theorem applyCalls_mShouldQuit (cs : List Call) (s : AppImplMswBasic)
    (h : s.mShouldQuit = true) : (applyCalls cs s).mShouldQuit = true := by
  induction cs generalizing s with
  | nil => exact h
  | cons c cs ih => exact ih _ (call_mShouldQuit c s h)

theorem applyAppCalls_mShouldQuit (cs : List AppCall) (s : AppImplMswBasic)
    (h : s.mShouldQuit = true) : (applyAppCalls cs s).mShouldQuit = true := by
  induction cs generalizing s with
  | nil => exact h
  | cons c cs ih => exact ih _ (appCall_mShouldQuit c s h)

theorem autoEpochTrigger_mShouldQuit (drawTime spf : ℚ) (s : AppImplMswBasic) :
    (autoEpochTrigger drawTime spf s).mShouldQuit = s.mShouldQuit := by
  unfold autoEpochTrigger
  split
  · split <;> rfl
  · rfl

theorem triggerReset_mShouldQuit (epochResetter : Nat) (s : AppImplMswBasic) :
    (triggerReset epochResetter s).mShouldQuit = s.mShouldQuit := by
  unfold triggerReset
  split <;> rfl

theorem epochCheck_mShouldQuit (now : ℚ) (s : AppImplMswBasic) :
    (epochCheck now s).mShouldQuit = s.mShouldQuit := by
  unfold epochCheck
  split <;> rfl

theorem lockFrame_mShouldQuit (s : AppImplMswBasic) :
    (lockFrame s).mShouldQuit = s.mShouldQuit := by
  unfold lockFrame
  split <;> rfl

theorem advanceNextFrameTime_mShouldQuit (spf currentSeconds : ℚ) (s : AppImplMswBasic) :
    (advanceNextFrameTime spf currentSeconds s).mShouldQuit = s.mShouldQuit := by
  unfold advanceNextFrameTime
  simp only
  split <;> rfl

theorem waitLoop_mShouldQuit (others : List (List AppCall)) (s : AppImplMswBasic)
    (w : AppImplMswBasic × Nat) (h : waitLoop others s = some w)
    (hq : s.mShouldQuit = true) : w.1.mShouldQuit = true := by
  induction others generalizing s w with
  | nil =>
    unfold waitLoop at h
    split at h
    · exact absurd h (by simp)
    · rw [← Option.some.inj h]; exact hq
  | cons b bs ih =>
    unfold waitLoop at h
    split at h
    · cases hr : waitLoop bs (applyAppCalls b s) with
      | none => rw [hr] at h; exact absurd h (by simp)
      | some x =>
        rw [hr] at h
        simp only [Option.map_some'] at h
        rw [← Option.some.inj h]
        exact ih _ x hr (applyAppCalls_mShouldQuit b s hq)
    · rw [← Option.some.inj h]; exact hq

theorem sleepLoop_mShouldQuit (wakeups : List (List AppCall)) (s : AppImplMswBasic)
    (h : s.mShouldQuit = true) : (sleepLoop wakeups s).mShouldQuit = true := by
  cases wakeups with
  | nil => exact h
  | cons b bs => simp [sleepLoop, h]

theorem sleep_mShouldQuit (seconds : ℚ) (timerSet : Bool) (wakeups : List (List AppCall))
    (s : AppImplMswBasic) (h : s.mShouldQuit = true) :
    (sleep seconds timerSet wakeups s).mShouldQuit = true := by
  unfold sleep
  simp only
  split
  · exact h
  · split
    · exact h
    · exact sleepLoop_mShouldQuit wakeups s h

theorem peekMessages_mShouldQuit (msgs : List (List AppCall)) (s : AppImplMswBasic)
    (h : s.mShouldQuit = true) : (peekMessages msgs s).mShouldQuit = true := by
  unfold peekMessages
  induction msgs generalizing s with
  | nil => exact h
  | cons m ms ih => exact ih _ (applyAppCalls_mShouldQuit m s h)

theorem pace_mShouldQuit (env : FrameEnv) (currentSeconds : ℚ) (s : AppImplMswBasic)
    (h : s.mShouldQuit = true) : (pace env currentSeconds s).1.mShouldQuit = true := by
  unfold pace
  split
  · exact sleep_mShouldQuit _ _ _ s h
  · exact peekMessages_mShouldQuit _ s h

theorem endFrame_mShouldQuit (env : FrameEnv) (spf : ℚ) (s : AppImplMswBasic)
    (h : s.mShouldQuit = true) : (endFrame env spf s).1.mShouldQuit = true := by
  unfold endFrame
  exact applyAppCalls_mShouldQuit _ _
    (pace_mShouldQuit env _ _ (by rw [advanceNextFrameTime_mShouldQuit]; exact h))

theorem postUpdateDraw_mShouldQuit (env : FrameEnv) (s : AppImplMswBasic)
    (h : s.mShouldQuit = true) : (postUpdateDraw env s).mShouldQuit = true := by
  unfold postUpdateDraw
  rw [epochCheck_mShouldQuit]
  exact applyAppCalls_mShouldQuit _ s h

theorem runLoop_of_quit (frames : Nat → FrameEnv) (fuel k : Nat) (s : AppImplMswBasic)
    (h : s.mShouldQuit = true) : runLoop frames fuel k s = some (s, []) := by
  cases fuel <;> simp [runLoop, h]

/-! ## The draw loop -/

theorem redrawMany_nil (f : WindowImplMswBasic → List Call) (s : AppImplMswBasic) :
    redrawMany f [] s = s := rfl

theorem redrawMany_cons (f : WindowImplMswBasic → List Call) (w : WindowImplMswBasic)
    (ws : List WindowImplMswBasic) (s : AppImplMswBasic) :
    redrawMany f (w :: ws) s = redrawMany f ws (applyCalls (f w) s) := rfl

theorem redrawAll_of_quit (f : WindowImplMswBasic → List Call) (ws : List WindowImplMswBasic)
    (s : AppImplMswBasic) (h : s.mShouldQuit = true) : redrawAll f ws s = (s, []) := by
  induction ws with
  | nil => rfl
  | cons w ws ih => simp [redrawAll, h, ih]

theorem redrawnWindows_map_redraw (ws : List WindowImplMswBasic) :
    redrawnWindows (ws.map Event.redraw) = ws := by
  induction ws with
  | nil => rfl
  | cons w ws ih => simp [redrawnWindows, ih]

theorem redrawnWindows_map_resize (ws : List WindowImplMswBasic) :
    redrawnWindows (ws.map Event.resize) = [] := by
  induction ws with
  | nil => rfl
  | cons w ws ih => simp [redrawnWindows, ih]

theorem redrawnWindows_append (l1 l2 : List Event) :
    redrawnWindows (l1 ++ l2) = redrawnWindows l1 ++ redrawnWindows l2 := by
  induction l1 with
  | nil => rfl
  | cons e es ih => cases e <;> simp [redrawnWindows, ih]

theorem redrawAll_spec (f : WindowImplMswBasic → List Call) (ws : List WindowImplMswBasic)
    (s : AppImplMswBasic) :
    ∃ rd, rd <+: ws ∧ (redrawAll f ws s).2 = rd.map Event.redraw ∧
      (redrawAll f ws s).1 = redrawMany f rd s ∧
      (∀ k, k < rd.length → (redrawMany f (rd.take k) s).mShouldQuit = false) ∧
      (rd ≠ ws → (redrawAll f ws s).1.mShouldQuit = true) := by
  induction ws generalizing s with
  | nil =>
    exact ⟨[], List.nil_prefix, rfl, rfl, fun k hk => absurd hk (by simp), fun h => absurd rfl h⟩
  | cons w ws ih =>
    cases hq : s.mShouldQuit
    · obtain ⟨rd, hp, he, hs, hk, hn⟩ := ih (applyCalls (f w) s)
      refine ⟨w :: rd, (List.prefix_cons_inj w).mpr hp, ?_, ?_, ?_, ?_⟩
      · simp [redrawAll, hq, he]
      · simp [redrawAll, hq, hs, redrawMany_cons]
      · intro k hlt
        cases k with
        | zero => simpa [redrawMany_nil] using hq
        | succ k =>
          simp only [List.take_succ_cons, redrawMany_cons]
          exact hk k (by simpa using hlt)
      · intro hne
        have hne' : rd ≠ ws := fun e => hne (by rw [e])
        simpa [redrawAll, hq] using hn hne'
    · refine ⟨[], List.nil_prefix, ?_, ?_, fun k hk => absurd hk (by simp), ?_⟩
      · rw [redrawAll_of_quit f _ s hq]; rfl
      · rw [redrawAll_of_quit f _ s hq]; rfl
      · intro _
        rw [redrawAll_of_quit f _ s hq]
        exact hq

theorem updateDraw_events (env : FrameEnv) (spf : ℚ) (epochResetter : Nat)
    (s : AppImplMswBasic) :
    (updateDraw env spf epochResetter s).2 =
      (redrawAll env.redraw (applyAppCalls env.update s).mWindows
        (applyAppCalls env.update s)).2 := rfl

theorem updateDraw_mShouldQuit (env : FrameEnv) (spf : ℚ) (epochResetter : Nat)
    (s : AppImplMswBasic) :
    (updateDraw env spf epochResetter s).1.mShouldQuit =
      (redrawAll env.redraw (applyAppCalls env.update s).mWindows
        (applyAppCalls env.update s)).1.mShouldQuit := by
  unfold updateDraw
  simp only [triggerReset_mShouldQuit, autoEpochTrigger_mShouldQuit]

theorem redrawnWindows_beginFrame (env : FrameEnv) (s : AppImplMswBasic) :
    redrawnWindows (beginFrame env s).2 = [] := by
  unfold beginFrame
  rw [refreshDisplays_events]
  split
  · exact redrawnWindows_map_resize _
  · rfl

theorem redrawnWindows_endFrame (env : FrameEnv) (spf : ℚ) (s : AppImplMswBasic) :
    redrawnWindows (endFrame env spf s).2 = [] := by
  unfold endFrame
  simp only [pace_events]
  split <;> rfl

/-- C7. In a frame that completes, the windows redrawn form an initial
segment of the window list (as it is when `privateUpdate__` returns): before
each redraw that happens the should-quit flag is false, and when not all the
windows are redrawn the flag is true after the last redraw (after the update
when none is). Once the flag is true after the draw loop it is true when the
frame ends, and the loop runs no further frame. -/
theorem frame_redraw_until_quit (env : FrameEnv) (s : AppImplMswBasic)
    (r : AppImplMswBasic × List Event) (h : frame env s = some r) :
    ∃ w1 : AppImplMswBasic × Nat,
      waitLoop env.waitUpdate (lockFrame (beginFrame env s).1) = some w1 ∧
      redrawnWindows r.2 <+: (applyAppCalls env.update w1.1).mWindows ∧
      (∀ k, k < (redrawnWindows r.2).length →
        (redrawMany env.redraw ((redrawnWindows r.2).take k)
          (applyAppCalls env.update w1.1)).mShouldQuit = false) ∧
      (redrawnWindows r.2 ≠ (applyAppCalls env.update w1.1).mWindows →
        (redrawMany env.redraw (redrawnWindows r.2)
          (applyAppCalls env.update w1.1)).mShouldQuit = true) ∧
      ((redrawMany env.redraw (redrawnWindows r.2)
          (applyAppCalls env.update w1.1)).mShouldQuit = true →
        r.1.mShouldQuit = true ∧
        ∀ (frames : Nat → FrameEnv) (fuel k : Nat), runLoop frames fuel k r.1 = some (r.1, [])) := by
  obtain ⟨w1, w2, hw1, hw2, hst, htr⟩ := frame_eq_some env s r h
  obtain ⟨rd, hp, he, hs, hk, hn⟩ := redrawAll_spec env.redraw
    (applyAppCalls env.update w1.1).mWindows (applyAppCalls env.update w1.1)
  have hrd : redrawnWindows r.2 = rd := by
    rw [htr]
    simp only [redrawnWindows_append, redrawnWindows_beginFrame, redrawnWindows_endFrame,
      updateDraw_events, he, redrawnWindows_map_redraw]
    simp [redrawnWindows]
  refine ⟨w1, hw1, ?_, ?_, ?_, ?_⟩
  · rw [hrd]; exact hp
  · rw [hrd]; exact hk
  · rw [hrd, ← hs]; exact hn
  · rw [hrd, ← hs]
    intro hq
    have h1 : (updateDraw env (secondsPerFrame s) s.epochResetCounter w1.1).1.mShouldQuit
        = true := by
      rw [updateDraw_mShouldQuit]; exact hq
    have h2 := postUpdateDraw_mShouldQuit env _ h1
    have h3 : (lockFrame (postUpdateDraw env
        (updateDraw env (secondsPerFrame s) s.epochResetCounter w1.1).1)).mShouldQuit = true := by
      rw [lockFrame_mShouldQuit]; exact h2
    have h4 := waitLoop_mShouldQuit _ _ _ hw2 h3
    have h5 : r.1.mShouldQuit = true := by
      rw [hst]; exact endFrame_mShouldQuit env _ _ h4
    exact ⟨h5, fun frames fuel k => runLoop_of_quit frames fuel k r.1 h5⟩

/-- Witness of C7: three windows, the redraw of the second one calls `quit()`. -/
theorem frame_redraw_until_quit_witness :
    ∃ r, frame quitInDraw sampleDriver = some r ∧
      redrawnWindows r.2 = [windowA, windowB] ∧
      ∃ w1 : AppImplMswBasic × Nat,
        waitLoop quitInDraw.waitUpdate (lockFrame (beginFrame quitInDraw sampleDriver).1)
          = some w1 ∧
        redrawnWindows r.2 <+: (applyAppCalls quitInDraw.update w1.1).mWindows ∧
        (∀ k, k < (redrawnWindows r.2).length →
          (redrawMany quitInDraw.redraw ((redrawnWindows r.2).take k)
            (applyAppCalls quitInDraw.update w1.1)).mShouldQuit = false) ∧
        (redrawnWindows r.2 ≠ (applyAppCalls quitInDraw.update w1.1).mWindows →
          (redrawMany quitInDraw.redraw (redrawnWindows r.2)
            (applyAppCalls quitInDraw.update w1.1)).mShouldQuit = true) ∧
        ((redrawMany quitInDraw.redraw (redrawnWindows r.2)
            (applyAppCalls quitInDraw.update w1.1)).mShouldQuit = true →
          r.1.mShouldQuit = true ∧
          ∀ (frames : Nat → FrameEnv) (fuel k : Nat),
            runLoop frames fuel k r.1 = some (r.1, [])) :=
  have hs : (frame quitInDraw sampleDriver).isSome = true := by decide!
  have hm : (frame quitInDraw sampleDriver).map (fun r => redrawnWindows r.2)
      = some [windowA, windowB] := by decide!
  have hr : ∀ r, frame quitInDraw sampleDriver = some r →
      redrawnWindows r.2 = [windowA, windowB] := by
    intro r e
    rw [e] at hm
    exact Option.some.inj hm
  ⟨(frame quitInDraw sampleDriver).get hs, (Option.some_get hs).symm,
    hr _ (Option.some_get hs).symm,
    frame_redraw_until_quit quitInDraw sampleDriver _ (Option.some_get hs).symm⟩

/-! ## The epoch reset -/

theorem call_mEpochReset (c : Call) (s : AppImplMswBasic) :
    (c.apply s).mEpochReset = (s.mEpochReset || c.isEpochReset) := by
  cases c <;> simp [Call.apply, Call.isEpochReset, Cinder.quit, Cinder.setFrameRate,
    Cinder.disableFrameRate, Cinder.setFrameLock, Cinder.enableAutoEpochReset,
    Cinder.epochReset, Cinder.setSyncMode, Cinder.setDebug, Cinder.setForegroundWindow,
    Cinder.markDisplaysChanged]
  split <;> rfl

theorem appCall_mEpochReset (c : AppCall) (s : AppImplMswBasic) :
    (c.apply s).mEpochReset = (s.mEpochReset || c.isEpochReset) := by
  cases c with
  | call c => exact call_mEpochReset c s
  | createWindow w => simp [AppCall.apply, AppCall.isEpochReset, Cinder.createWindow]
  | closeWindow w => simp [AppCall.apply, AppCall.isEpochReset, closeWindow_eq]

theorem applyCalls_mEpochReset (cs : List Call) (s : AppImplMswBasic) :
    (applyCalls cs s).mEpochReset = (s.mEpochReset || cs.any Call.isEpochReset) := by
  induction cs generalizing s with
  | nil => simp [applyCalls_nil]
  | cons c cs ih =>
    rw [applyCalls_cons, ih, call_mEpochReset, List.any_cons, Bool.or_assoc]

theorem applyAppCalls_mEpochReset (cs : List AppCall) (s : AppImplMswBasic) :
    (applyAppCalls cs s).mEpochReset = (s.mEpochReset || cs.any AppCall.isEpochReset) := by
  induction cs generalizing s with
  | nil => simp [applyAppCalls_nil]
  | cons c cs ih =>
    rw [applyAppCalls_cons, ih, appCall_mEpochReset, List.any_cons, Bool.or_assoc]

theorem redrawMany_mEpochReset (f : WindowImplMswBasic → List Call)
    (rd : List WindowImplMswBasic) (s : AppImplMswBasic) :
    (redrawMany f rd s).mEpochReset =
      (s.mEpochReset || rd.any (fun w => (f w).any Call.isEpochReset)) := by
  induction rd generalizing s with
  | nil => simp [redrawMany_nil]
  | cons w ws ih =>
    rw [redrawMany_cons, ih, applyCalls_mEpochReset, List.any_cons, Bool.or_assoc]

theorem redrawMany_epochResetCounter (f : WindowImplMswBasic → List Call)
    (rd : List WindowImplMswBasic) (s : AppImplMswBasic) :
    (redrawMany f rd s).epochResetCounter = s.epochResetCounter := by
  induction rd generalizing s with
  | nil => rfl
  | cons w ws ih => rw [redrawMany_cons, ih, applyCalls_epochResetCounter]

theorem succ_mod_ne (c : Nat) : (c + 1) % 2 ^ 32 ≠ c := by
  intro h
  have h1 : (c + 1) % 2 ^ 32 < 2 ^ 32 := Nat.mod_lt _ (by norm_num)
  have h2 : c < 2 ^ 32 := by omega
  by_cases h3 : c + 1 < 2 ^ 32
  · rw [Nat.mod_eq_of_lt h3] at h
    omega
  · have h4 : c + 1 = 2 ^ 32 := by omega
    rw [h4, Nat.mod_self] at h
    omega

theorem triggerReset_autoEpochTrigger (drawTime spf : ℚ) (s : AppImplMswBasic) :
    triggerReset s.epochResetCounter (autoEpochTrigger drawTime spf s) =
      if (s.mAutoEpochReset && s.mFrameRateEnabled && decide (drawTime > spf)) = true then
        { s with epochResetCounter := (s.epochResetCounter + 1) % 2 ^ 32, mEpochReset := true }
      else s := by
  by_cases h1 : (s.mAutoEpochReset && s.mFrameRateEnabled) = true
  · by_cases h2 : drawTime > spf
    · have hc : (s.mAutoEpochReset && s.mFrameRateEnabled && decide (drawTime > spf)) = true := by
        simp [h1, h2]
      rw [if_pos hc]
      unfold autoEpochTrigger triggerReset
      rw [if_pos h1, if_pos h2]
      simp only
      rw [if_pos (Ne.symm (succ_mod_ne _))]
    · have hc : ¬ (s.mAutoEpochReset && s.mFrameRateEnabled && decide (drawTime > spf)) = true := by
        simp [h2]
      rw [if_neg hc]
      unfold autoEpochTrigger triggerReset
      rw [if_pos h1, if_neg h2]
      simp
  · have hc : ¬ (s.mAutoEpochReset && s.mFrameRateEnabled && decide (drawTime > spf)) = true := by
      intro hx
      apply h1
      simp only [Bool.and_eq_true] at hx ⊢
      exact hx.1
    rw [if_neg hc]
    unfold autoEpochTrigger triggerReset
    rw [if_neg h1]
    simp

theorem epochCheck_mNextFrameTime (now : ℚ) (s : AppImplMswBasic) :
    (epochCheck now s).mNextFrameTime =
      if s.mEpochReset = true then now else s.mNextFrameTime := by
  unfold epochCheck
  split <;> rfl

theorem epochCheck_mEpochReset (now : ℚ) (s : AppImplMswBasic) :
    (epochCheck now s).mEpochReset = false := by
  unfold epochCheck
  split <;> rename_i hf
  · rfl
  · simpa using hf

/-- C9. In a frame that reaches the update, with `rd` the windows redrawn:
when `privatePostUpdateDraw__` has returned, the epoch-reset flag is set
exactly when it was set on entry to the update (a pending request), or
`epochReset()` was called during the update, a redraw or
`privatePostUpdateDraw__`, or the automatic trigger fired; the trigger fires
exactly when, after the redraws, auto epoch reset and frame-rate limiting are
both enabled and the draw time is strictly greater than `secondsPerFrame`.
The check then sets `mNextFrameTime` to the clock reading exactly when the
flag is set, and leaves the flag false. -/
theorem epochReset_spec (env : FrameEnv) (s : AppImplMswBasic) (w1 : AppImplMswBasic × Nat)
    (h1 : waitLoop env.waitUpdate (lockFrame (beginFrame env s).1) = some w1) :
    ∃ rd : List WindowImplMswBasic,
      (updateDraw env (secondsPerFrame s) s.epochResetCounter w1.1).2 = rd.map Event.redraw ∧
      (applyAppCalls env.postUpdateDraw
          (updateDraw env (secondsPerFrame s) s.epochResetCounter w1.1).1).mEpochReset =
        (w1.1.mEpochReset || env.update.any AppCall.isEpochReset ||
          rd.any (fun w => (env.redraw w).any Call.isEpochReset) ||
          ((redrawMany env.redraw rd (applyAppCalls env.update w1.1)).mAutoEpochReset &&
            (redrawMany env.redraw rd (applyAppCalls env.update w1.1)).mFrameRateEnabled &&
            decide (env.drawEnd - env.drawStart > secondsPerFrame s)) ||
          env.postUpdateDraw.any AppCall.isEpochReset) ∧
      (postUpdateDraw env
          (updateDraw env (secondsPerFrame s) s.epochResetCounter w1.1).1).mNextFrameTime =
        (if (applyAppCalls env.postUpdateDraw
            (updateDraw env (secondsPerFrame s) s.epochResetCounter w1.1).1).mEpochReset = true
          then env.epochTime
          else (applyAppCalls env.postUpdateDraw
            (updateDraw env (secondsPerFrame s) s.epochResetCounter w1.1).1).mNextFrameTime) ∧
      (postUpdateDraw env
          (updateDraw env (secondsPerFrame s) s.epochResetCounter w1.1).1).mEpochReset
        = false := by
  obtain ⟨rd, _, he, hs, _, _⟩ := redrawAll_spec env.redraw
    (applyAppCalls env.update w1.1).mWindows (applyAppCalls env.update w1.1)
  have hc : s.epochResetCounter =
      (redrawMany env.redraw rd (applyAppCalls env.update w1.1)).epochResetCounter := by
    rw [redrawMany_epochResetCounter, applyAppCalls_epochResetCounter,
      waitLoop_epochResetCounter _ _ _ h1, lockFrame_epochResetCounter,
      beginFrame_epochResetCounter]
  have hu : (updateDraw env (secondsPerFrame s) s.epochResetCounter w1.1).1 =
      triggerReset (redrawMany env.redraw rd (applyAppCalls env.update w1.1)).epochResetCounter
        (autoEpochTrigger (env.drawEnd - env.drawStart) (secondsPerFrame s)
          (redrawMany env.redraw rd (applyAppCalls env.update w1.1))) := by
    unfold updateDraw
    simp only [hs, ← hc]
  refine ⟨rd, by rw [updateDraw_events, he], ?_, ?_, ?_⟩
  · rw [applyAppCalls_mEpochReset, hu, triggerReset_autoEpochTrigger]
    split <;> rename_i hf
    · simp only [hf, Bool.or_true, Bool.true_or]
    · simp only [Bool.not_eq_true] at hf
      simp only [hf, Bool.or_false, redrawMany_mEpochReset, applyAppCalls_mEpochReset]
  · exact epochCheck_mNextFrameTime _ _
  · exact epochCheck_mEpochReset _ _

/-- Witness of C9: auto epoch reset on, 60 frames per second, a draw that takes a second. -/
theorem epochReset_spec_witness :
    ∃ w1 : AppImplMswBasic × Nat,
      waitLoop slowDraw.waitUpdate
        (lockFrame (beginFrame slowDraw { sampleDriver with mAutoEpochReset := true }).1)
        = some w1 ∧
      ∃ rd : List WindowImplMswBasic,
        (updateDraw slowDraw (secondsPerFrame { sampleDriver with mAutoEpochReset := true })
          ({ sampleDriver with mAutoEpochReset := true } : AppImplMswBasic).epochResetCounter
          w1.1).2 = rd.map Event.redraw ∧
        (applyAppCalls slowDraw.postUpdateDraw
            (updateDraw slowDraw (secondsPerFrame { sampleDriver with mAutoEpochReset := true })
              ({ sampleDriver with mAutoEpochReset := true } : AppImplMswBasic).epochResetCounter
              w1.1).1).mEpochReset =
          (w1.1.mEpochReset || slowDraw.update.any AppCall.isEpochReset ||
            rd.any (fun w => (slowDraw.redraw w).any Call.isEpochReset) ||
            ((redrawMany slowDraw.redraw rd
                (applyAppCalls slowDraw.update w1.1)).mAutoEpochReset &&
              (redrawMany slowDraw.redraw rd
                (applyAppCalls slowDraw.update w1.1)).mFrameRateEnabled &&
              decide (slowDraw.drawEnd - slowDraw.drawStart >
                secondsPerFrame { sampleDriver with mAutoEpochReset := true })) ||
            slowDraw.postUpdateDraw.any AppCall.isEpochReset) ∧
        (postUpdateDraw slowDraw
            (updateDraw slowDraw (secondsPerFrame { sampleDriver with mAutoEpochReset := true })
              ({ sampleDriver with mAutoEpochReset := true } : AppImplMswBasic).epochResetCounter
              w1.1).1).mNextFrameTime =
          (if (applyAppCalls slowDraw.postUpdateDraw
              (updateDraw slowDraw
                (secondsPerFrame { sampleDriver with mAutoEpochReset := true })
                ({ sampleDriver with mAutoEpochReset := true } : AppImplMswBasic).epochResetCounter
                w1.1).1).mEpochReset = true
            then slowDraw.epochTime
            else (applyAppCalls slowDraw.postUpdateDraw
              (updateDraw slowDraw
                (secondsPerFrame { sampleDriver with mAutoEpochReset := true })
                ({ sampleDriver with mAutoEpochReset := true } : AppImplMswBasic).epochResetCounter
                w1.1).1).mNextFrameTime) ∧
        (postUpdateDraw slowDraw
            (updateDraw slowDraw (secondsPerFrame { sampleDriver with mAutoEpochReset := true })
              ({ sampleDriver with mAutoEpochReset := true } : AppImplMswBasic).epochResetCounter
              w1.1).1).mEpochReset
          = false :=
  have hs : (waitLoop slowDraw.waitUpdate
      (lockFrame (beginFrame slowDraw { sampleDriver with mAutoEpochReset := true }).1)).isSome
      = true := by decide!
  ⟨_, (Option.some_get hs).symm,
    epochReset_spec slowDraw { sampleDriver with mAutoEpochReset := true } _
      (Option.some_get hs).symm⟩

/-! ## The calls of a run -/

theorem endFrame_events (env : FrameEnv) (spf : ℚ) (s : AppImplMswBasic) :
    ∃ p : Event, p.isPacing = true ∧ (endFrame env spf s).2 = [p] := by
  unfold endFrame
  simp only [pace_events]
  split
  · exact ⟨Event.sleep _, rfl, rfl⟩
  · exact ⟨Event.peekMessages, rfl, rfl⟩

theorem frame_calls (env : FrameEnv) (s : AppImplMswBasic) (r : AppImplMswBasic × List Event)
    (h : frame env s = some r) :
    ∃ (w1 : AppImplMswBasic × Nat) (rd : List WindowImplMswBasic) (p : Event),
      waitLoop env.waitUpdate (lockFrame (beginFrame env s).1) = some w1 ∧
      rd <+: (applyAppCalls env.update w1.1).mWindows ∧
      p.isPacing = true ∧
      r.2 = [Event.privateBeginFrame] ++
        (if (applyAppCalls env.beginFrame s).mNeedsToRefreshDisplays &&
            (applyAppCalls env.beginFrame s).highDensityDisplayEnabled then
          (applyAppCalls env.beginFrame s).mWindows.map Event.resize
        else []) ++
        [Event.privateUpdate] ++ rd.map Event.redraw ++
        [Event.privatePostUpdateDraw, p, Event.privateEndFrame] := by
  obtain ⟨w1, w2, hw1, _, _, htr⟩ := frame_eq_some env s r h
  obtain ⟨rd, hpre, he, _⟩ := redrawAll_spec env.redraw
    (applyAppCalls env.update w1.1).mWindows (applyAppCalls env.update w1.1)
  obtain ⟨p, hp, hpe⟩ := endFrame_events env (secondsPerFrame s) w2.1
  refine ⟨w1, rd, p, hw1, hpre, hp, ?_⟩
  have hb : (beginFrame env s).2 =
      (if (applyAppCalls env.beginFrame s).mNeedsToRefreshDisplays &&
          (applyAppCalls env.beginFrame s).highDensityDisplayEnabled then
        (applyAppCalls env.beginFrame s).mWindows.map Event.resize
      else []) := refreshDisplays_events env _
  rw [htr, hb, updateDraw_events, he, hpe]
  simp only [List.append_assoc, List.cons_append, List.nil_append]

theorem runLoop_spec (frames : Nat → FrameEnv) (fuel k0 : Nat) (s : AppImplMswBasic)
    (l : AppImplMswBasic × List (List Event)) (h : runLoop frames fuel k0 s = some l) :
    ∃ st : Nat → AppImplMswBasic,
      st 0 = s ∧ st l.2.length = l.1 ∧ l.1.mShouldQuit = true ∧
      ∀ i (hi : i < l.2.length),
        (st i).mShouldQuit = false ∧
        frame (frames (k0 + i)) (st i) = some (st (i + 1), l.2.get ⟨i, hi⟩) := by
  induction fuel generalizing k0 s l with
  | zero =>
    unfold runLoop at h
    split at h
    · exact absurd h (by simp)
    · rename_i hq
      rw [← Option.some.inj h]
      exact ⟨fun _ => s, rfl, rfl, by simpa using hq, fun i hi => absurd hi (by simp)⟩
  | succ fuel ih =>
    unfold runLoop at h
    split at h
    · rename_i hq
      cases hf : frame (frames k0) s with
      | none => rw [hf] at h; exact absurd h (by simp)
      | some f =>
        rw [hf] at h
        simp only at h
        cases hr : runLoop frames fuel (k0 + 1) f.1 with
        | none => rw [hr] at h; exact absurd h (by simp)
        | some x =>
          rw [hr] at h
          simp only [Option.map_some'] at h
          rw [← Option.some.inj h]
          obtain ⟨st', h0, hn, hqx, hstep⟩ := ih (k0 + 1) f.1 x hr
          refine ⟨fun i => match i with | 0 => s | j + 1 => st' j, rfl, ?_, hqx, ?_⟩
          · simpa using hn
          · intro i hi
            cases i with
            | zero =>
              refine ⟨by simpa using hq, ?_⟩
              simp only [Nat.add_zero, List.get_eq_getElem, List.getElem_cons_zero]
              rw [hf, h0]
            | succ i =>
              have hi' : i < x.2.length := by simpa using hi
              obtain ⟨h1, h2⟩ := hstep i hi'
              refine ⟨h1, ?_⟩
              have e : k0 + (i + 1) = k0 + 1 + i := by omega
              rw [e]
              simpa using h2
    · rename_i hq
      rw [← Option.some.inj h]
      exact ⟨fun _ => s, rfl, rfl, by simpa using hq, fun i hi => absurd hi (by simp)⟩

theorem resizeAll_mWindows (f : WindowImplMswBasic → List Call) (ws : List WindowImplMswBasic)
    (s : AppImplMswBasic) : (resizeAll f ws s).1.mWindows = s.mWindows := by
  induction ws generalizing s with
  | nil => rfl
  | cons w ws ih => simp only [resizeAll, ih, applyCalls_mWindows]

theorem startup_events (env : RunEnv) (s : AppImplMswBasic) :
    (startup env s).2 = [Event.privateSetup, Event.emitDidBecomeActive] ++
      (startup env s).1.mWindows.map Event.resize := by
  unfold startup
  simp only [resizeAll_events, resizeAll_mWindows]

theorem run_eq_some (env : RunEnv) (fuel : Nat) (s : AppImplMswBasic)
    (r : AppImplMswBasic × List Event) (h : run env fuel s = some r) :
    ∃ l : AppImplMswBasic × List (List Event),
      runLoop env.frames fuel 0 (startup env s).1 = some l ∧
      r.1 = applyAppCalls env.cleanup l.1 ∧
      r.2 = [Event.privateSetup, Event.emitDidBecomeActive] ++
        (startup env s).1.mWindows.map Event.resize ++ l.2.flatten ++ [Event.emitCleanup] := by
  unfold run at h
  simp only at h
  split at h
  · exact absurd h (by simp)
  · rename_i l hl
    refine ⟨l, hl, ?_, ?_⟩
    · rw [← Option.some.inj h]
    · rw [← Option.some.inj h, startup_events]

theorem not_mem_frame_calls (e : Event) (rs rd : List WindowImplMswBasic) (p : Event)
    (hp : p.isPacing = true)
    (he : e = Event.privateSetup ∨ e = Event.emitCleanup) :
    e ∉ [Event.privateBeginFrame] ++ rs.map Event.resize ++ [Event.privateUpdate] ++
      rd.map Event.redraw ++ [Event.privatePostUpdateDraw, p, Event.privateEndFrame] := by
  have hpe : e ≠ p := by
    rcases he with he | he <;> subst he <;> intro hc <;> subst hc <;> simp [Event.isPacing] at hp
  rcases he with he | he <;> subst he <;>
    simp [List.mem_append, List.mem_map, hpe]

theorem beginThenUpdate_cons_ne (a : Event) (es : List Event)
    (h : a ≠ Event.privateBeginFrame) : beginThenUpdate (a :: es) = beginThenUpdate es := by
  cases es with
  | nil => rfl
  | cons b es => simp [beginThenUpdate, h]

theorem beginThenUpdate_begin_update (es : List Event) :
    beginThenUpdate (Event.privateBeginFrame :: Event.privateUpdate :: es)
      = beginThenUpdate es := by
  rw [← beginThenUpdate_cons_ne Event.privateUpdate es (by simp)]
  simp [beginThenUpdate]

theorem beginThenUpdate_map_resize (ws : List WindowImplMswBasic) (es : List Event) :
    beginThenUpdate (ws.map Event.resize ++ es) = beginThenUpdate es := by
  induction ws with
  | nil => rfl
  | cons w ws ih =>
    rw [List.map_cons, List.cons_append, beginThenUpdate_cons_ne _ _ (by simp), ih]

theorem beginThenUpdate_map_redraw (ws : List WindowImplMswBasic) (es : List Event) :
    beginThenUpdate (ws.map Event.redraw ++ es) = beginThenUpdate es := by
  induction ws with
  | nil => rfl
  | cons w ws ih =>
    rw [List.map_cons, List.cons_append, beginThenUpdate_cons_ne _ _ (by simp), ih]

theorem beginThenUpdate_plain_frames (frs : List (List Event)) (es : List Event)
    (h : ∀ f ∈ frs, ∃ (rd : List WindowImplMswBasic) (p : Event), p.isPacing = true ∧
      f = [Event.privateBeginFrame, Event.privateUpdate] ++ rd.map Event.redraw ++
        [Event.privatePostUpdateDraw, p, Event.privateEndFrame]) :
    beginThenUpdate (frs.flatten ++ es) = beginThenUpdate es := by
  induction frs with
  | nil => rfl
  | cons f fs ih =>
    obtain ⟨rd, p, hp, hf⟩ := h f (List.mem_cons_self _ _)
    have hpne : p ≠ Event.privateBeginFrame := by
      intro e; subst e; simp [Event.isPacing] at hp
    have ih' := ih (fun g hg => h g (List.mem_cons_of_mem _ hg))
    rw [List.flatten_cons, hf]
    simp only [List.append_assoc, List.cons_append, List.nil_append]
    rw [beginThenUpdate_begin_update, beginThenUpdate_map_redraw,
      beginThenUpdate_cons_ne _ _ (by simp), beginThenUpdate_cons_ne _ _ hpne,
      beginThenUpdate_cons_ne _ _ (by simp), ih']

theorem beginThenUpdate_of_plain (tr : List Event) (h : PlainRunCalls tr) :
    beginThenUpdate tr = true := by
  obtain ⟨ws, frs, rfl, hf⟩ := h
  simp only [List.append_assoc, List.cons_append, List.nil_append]
  rw [beginThenUpdate_cons_ne _ _ (by simp), beginThenUpdate_cons_ne _ _ (by simp),
    beginThenUpdate_map_resize, beginThenUpdate_plain_frames frs _ hf]
  rfl

/-- C1, as stated, fails when a frame refreshes the displays. Sync mode is
off; during the sleep of the first frame a window reports a display change;
high-density display is enabled, so the second frame resizes the three windows
between `privateBeginFrame__` and `privateUpdate__`. The calls of the run are
not of the form the claim gives. -/
theorem run_calls_counterexample :
    sampleDriver.mSyncMode = false ∧
    ∃ r, run refreshRun 2 sampleDriver = some r ∧ ¬ PlainRunCalls r.2 := by
  have hs : (run refreshRun 2 sampleDriver).isSome = true := by decide!
  have hm : (run refreshRun 2 sampleDriver).map (fun r => beginThenUpdate r.2)
      = some false := by decide!
  refine ⟨rfl, (run refreshRun 2 sampleDriver).get hs, (Option.some_get hs).symm, ?_⟩
  intro hp
  have h1 := beginThenUpdate_of_plain _ hp
  rw [← Option.some_get hs] at hm
  have h2 : beginThenUpdate ((run refreshRun 2 sampleDriver).get hs).2 = false :=
    Option.some.inj hm
  rw [h1] at h2
  exact absurd h2 (by simp)

/-- C1, amended. A run that returns after `n` frames (`n` the length of `frs`,
`st k` the driver when frame `k` starts) has made these calls, in this order:
`privateSetup__`, `emitDidBecomeActive`, a resize of every window, then for
each frame `privateBeginFrame__`, then (only in a frame in which a display
refresh is pending when `privateBeginFrame__` returns, while high-density
display is enabled) a resize of every window, `privateUpdate__`, redraws of an
initial segment of the window list, `privatePostUpdateDraw__`, one pacing call
(sleep or message pump), `privateEndFrame__`, and at the end `emitCleanup`.
`privateSetup__` and `emitCleanup` are called exactly once, as the first and as
the last call. -/
theorem run_calls (env : RunEnv) (fuel : Nat) (s : AppImplMswBasic)
    (r : AppImplMswBasic × List Event) (h : run env fuel s = some r) :
    ∃ (frs : List (List Event)) (st : Nat → AppImplMswBasic),
      r.2 = [Event.privateSetup, Event.emitDidBecomeActive] ++
        (startup env s).1.mWindows.map Event.resize ++ frs.flatten ++ [Event.emitCleanup] ∧
      st 0 = (startup env s).1 ∧
      (st frs.length).mShouldQuit = true ∧
      r.1 = applyAppCalls env.cleanup (st frs.length) ∧
      (∀ k (hk : k < frs.length),
        (st k).mShouldQuit = false ∧
        frame (env.frames k) (st k) = some (st (k + 1), frs.get ⟨k, hk⟩) ∧
        ∃ (w1 : AppImplMswBasic × Nat) (rd : List WindowImplMswBasic) (p : Event),
          waitLoop (env.frames k).waitUpdate
            (lockFrame (beginFrame (env.frames k) (st k)).1) = some w1 ∧
          rd <+: (applyAppCalls (env.frames k).update w1.1).mWindows ∧
          p.isPacing = true ∧
          frs.get ⟨k, hk⟩ = [Event.privateBeginFrame] ++
            (if (applyAppCalls (env.frames k).beginFrame (st k)).mNeedsToRefreshDisplays &&
                (applyAppCalls (env.frames k).beginFrame (st k)).highDensityDisplayEnabled then
              (applyAppCalls (env.frames k).beginFrame (st k)).mWindows.map Event.resize
            else []) ++
            [Event.privateUpdate] ++ rd.map Event.redraw ++
            [Event.privatePostUpdateDraw, p, Event.privateEndFrame]) ∧
      r.2.count Event.privateSetup = 1 ∧
      r.2.count Event.emitCleanup = 1 := by
  obtain ⟨l, hl, hst, htr⟩ := run_eq_some env fuel s r h
  obtain ⟨st, h0, hn, hq, hstep⟩ := runLoop_spec env.frames fuel 0 _ l hl
  have hframe : ∀ k (hk : k < l.2.length),
      frame (env.frames k) (st k) = some (st (k + 1), l.2.get ⟨k, hk⟩) := by
    intro k hk
    have := (hstep k hk).2
    rwa [Nat.zero_add] at this
  have hshape : ∀ k (hk : k < l.2.length),
      ∃ (w1 : AppImplMswBasic × Nat) (rd : List WindowImplMswBasic) (p : Event),
        waitLoop (env.frames k).waitUpdate
          (lockFrame (beginFrame (env.frames k) (st k)).1) = some w1 ∧
        rd <+: (applyAppCalls (env.frames k).update w1.1).mWindows ∧
        p.isPacing = true ∧
        l.2.get ⟨k, hk⟩ = [Event.privateBeginFrame] ++
          (if (applyAppCalls (env.frames k).beginFrame (st k)).mNeedsToRefreshDisplays &&
              (applyAppCalls (env.frames k).beginFrame (st k)).highDensityDisplayEnabled then
            (applyAppCalls (env.frames k).beginFrame (st k)).mWindows.map Event.resize
          else []) ++
          [Event.privateUpdate] ++ rd.map Event.redraw ++
          [Event.privatePostUpdateDraw, p, Event.privateEndFrame] := fun k hk =>
    frame_calls (env.frames k) (st k) _ (hframe k hk)
  have hfl : ∀ e, (e = Event.privateSetup ∨ e = Event.emitCleanup) → e ∉ l.2.flatten := by
    intro e he hmem
    obtain ⟨f, hf, hef⟩ := List.mem_flatten.mp hmem
    obtain ⟨n, hn⟩ := List.mem_iff_get.mp hf
    obtain ⟨w1, rd, p, _, _, hp, hc⟩ := hshape n.1 n.2
    have hc' : f = _ := hn.symm.trans hc
    rw [hc'] at hef
    by_cases hb : ((applyAppCalls (env.frames n.1).beginFrame (st n.1)).mNeedsToRefreshDisplays &&
        (applyAppCalls (env.frames n.1).beginFrame (st n.1)).highDensityDisplayEnabled) = true
    · rw [if_pos hb] at hef
      exact not_mem_frame_calls e _ rd p hp he hef
    · rw [if_neg hb] at hef
      exact not_mem_frame_calls e [] rd p hp he hef
  have hrs : ∀ (e : Event) (ws : List WindowImplMswBasic),
      (e = Event.privateSetup ∨ e = Event.emitCleanup) →
      List.count e (ws.map Event.resize) = 0 := by
    intro e ws he
    apply List.count_eq_zero.mpr
    rcases he with he | he <;> subst he <;> simp
  refine ⟨l.2, st, htr, h0, by rw [hn]; exact hq, by rw [hn]; exact hst,
    fun k hk => ⟨(hstep k hk).1, hframe k hk, hshape k hk⟩, ?_, ?_⟩
  · rw [htr]
    simp [List.count_append, List.count_cons, hrs _ _ (Or.inl rfl),
      List.count_eq_zero.mpr (hfl _ (Or.inl rfl))]
  · rw [htr]
    simp [List.count_append, List.count_cons, hrs _ _ (Or.inr rfl),
      List.count_eq_zero.mpr (hfl _ (Or.inr rfl))]

/-- Witness of the amended C1: the run of two frames `refreshRun` returns. -/
theorem run_calls_witness :
    ∃ r, run refreshRun 2 sampleDriver = some r ∧
      ∃ (frs : List (List Event)) (st : Nat → AppImplMswBasic),
        r.2 = [Event.privateSetup, Event.emitDidBecomeActive] ++
          (startup refreshRun sampleDriver).1.mWindows.map Event.resize ++
          frs.flatten ++ [Event.emitCleanup] ∧
        st 0 = (startup refreshRun sampleDriver).1 ∧
        (st frs.length).mShouldQuit = true ∧
        r.1 = applyAppCalls refreshRun.cleanup (st frs.length) ∧
        (∀ k (hk : k < frs.length),
          (st k).mShouldQuit = false ∧
          frame (refreshRun.frames k) (st k) = some (st (k + 1), frs.get ⟨k, hk⟩) ∧
          ∃ (w1 : AppImplMswBasic × Nat) (rd : List WindowImplMswBasic) (p : Event),
            waitLoop (refreshRun.frames k).waitUpdate
              (lockFrame (beginFrame (refreshRun.frames k) (st k)).1) = some w1 ∧
            rd <+: (applyAppCalls (refreshRun.frames k).update w1.1).mWindows ∧
            p.isPacing = true ∧
            frs.get ⟨k, hk⟩ = [Event.privateBeginFrame] ++
              (if (applyAppCalls (refreshRun.frames k).beginFrame
                    (st k)).mNeedsToRefreshDisplays &&
                  (applyAppCalls (refreshRun.frames k).beginFrame
                    (st k)).highDensityDisplayEnabled
                then (applyAppCalls (refreshRun.frames k).beginFrame (st k)).mWindows.map
                  Event.resize
                else []) ++
              [Event.privateUpdate] ++ rd.map Event.redraw ++
              [Event.privatePostUpdateDraw, p, Event.privateEndFrame]) ∧
        r.2.count Event.privateSetup = 1 ∧
        r.2.count Event.emitCleanup = 1 :=
  have hs : (run refreshRun 2 sampleDriver).isSome = true := by decide!
  ⟨(run refreshRun 2 sampleDriver).get hs, (Option.some_get hs).symm,
    run_calls refreshRun 2 sampleDriver _ (Option.some_get hs).symm⟩

end Cinder
